import Mathlib

/-!
Shallow embedding of the krakenbot trading bot (JavaScript) in Lean 4,
with theorems settling the specification claims about it.

Modelling conventions:
* JavaScript numbers that are known to be finite are modelled as `ℚ`
  (the code paths under study guard against `NaN`/`Infinity` with
  `Number.isFinite` before arithmetic that matters).
* Where non-finite numbers are observable (`Number(x)` results fed to
  `Number.isFinite` guards), a JS number is modelled by `JsNum`, which
  distinguishes `NaN` and the two infinities.
* `Math.round x` is `⌊x + 1/2⌋` (JS rounds half-way cases toward +∞).
* Timestamps (`Date.now()` values) are rationals threaded explicitly.
* Fallible code returns `Except String`; thrown `Error(msg)` is
  `Except.error msg`.
* Effectful REST traffic is made explicit as a list of `Effect`s
  returned next to each result.
-/

/-- JS `Math.round`: rounds to the nearest integer, half-way cases
toward `+∞`. -/
def jsRound (q : ℚ) : ℤ := ⌊q + 1/2⌋

/-- A JavaScript number as observed through `Number.isFinite` guards:
either a finite value or one of the non-finite values. -/
inductive JsNum where
  | num (q : ℚ)
  | nan
  | inf
  | ninf
deriving DecidableEq, Repr

/-- The `Number.isFinite`. -/
def JsNum.isFinite : JsNum → Bool
  | .num _ => true
  | _ => false

/-- JS truthiness of a number: `0` and `NaN` are falsy, everything else
(including the infinities) is truthy. -/
def JsNum.truthy : JsNum → Bool
  | .num q => q ≠ 0
  | .nan => false
  | .inf => true
  | .ninf => true

/-- The `a - b` where `a` is a JS number and `b` is finite. -/
def JsNum.subQ : JsNum → ℚ → JsNum
  | .num q, b => .num (q - b)
  | .nan, _ => .nan
  | .inf, _ => .inf
  | .ninf, _ => .ninf

/-- The `a >= c` on JS numbers (`NaN` compares false; `+∞ >= c` is true). -/
def JsNum.geQ : JsNum → ℚ → Bool
  | .num q, c => c ≤ q
  | .nan, _ => false
  | .inf, _ => true
  | .ninf, _ => false

/-- Decidable equality for `Except` results, so concrete runs can be
checked by `decide`. -/
instance {ε α : Type} [DecidableEq ε] [DecidableEq α] : DecidableEq (Except ε α) := fun a b =>
  match a, b with
  | .ok x, .ok y =>
    match decEq x y with
    | .isTrue h => .isTrue (by rw [h])
    | .isFalse h => .isFalse (fun hc => h (by injection hc))
  | .ok _, .error _ => .isFalse (fun hc => by injection hc)
  | .error _, .ok _ => .isFalse (fun hc => by injection hc)
  | .error e, .error f =>
    match decEq e f with
    | .isTrue h => .isTrue (by rw [h])
    | .isFalse h => .isFalse (fun hc => h (by injection hc))

/-- Does `needle` occur at the head of `hay`? (char-list helper for
JS `String.prototype.includes`). -/
def charsStartWith : List Char → List Char → Bool
  | [], _ => true
  | _ :: _, [] => false
  | n :: ns, h :: hs => n = h && charsStartWith ns hs

/-- Does `needle` occur anywhere inside `hay`? -/
def charsContain : List Char → List Char → Bool
  | [], needle => needle.isEmpty
  | h :: t, needle => charsStartWith needle (h :: t) || charsContain t needle

/-- JS `hay.includes(needle)`. -/
def jsIncludes (hay needle : String) : Bool :=
  charsContain hay.data needle.data

/-- JS `String.prototype.toUpperCase` restricted to ASCII (all strings the
bot compares are ASCII). -/
def jsUpChar (c : Char) : Char :=
  if 97 ≤ c.toNat ∧ c.toNat ≤ 122 then Char.ofNat (c.toNat - 32) else c

/-- Uppercase an ASCII string. -/
def jsToUpper (s : String) : String := ⟨s.data.map jsUpChar⟩

/-! ## Bot.js: the order gateway

Source: `src/gpt-bot/Bot.js` — `formatWithPrecision`, `applyVolumePrecision`,
`applyPricePrecision`, `_normaliseVolume`, `_normalisePrice`, `_submitOrder`,
`marketBuy`, `marketSell`, `limitBuy`, `limitSell`.
-/

namespace Bot

/-- Count of trailing decimal zeros of a natural number (fuel-based so it
reduces by `decide`); `trailingZeros 0 = 0`. -/
def trailingZerosAux : ℕ → ℕ → ℕ
  | 0, _ => 0
  | fuel + 1, z => if z = 0 then 0 else if z % 10 = 0 then trailingZerosAux fuel (z / 10) + 1 else 0

/-- Trailing decimal zeros of `z`. -/
def trailingZeros (z : ℕ) : ℕ := trailingZerosAux z z

/-- Numeric value denoted by `z.toString().replace(/\.?0+$/, '')` for an
integer `z` (the `precision = 0` branch of `formatWithPrecision`):
the leftmost regex match strips the maximal run of trailing zero digits,
so `"100"` becomes `"1"`, i.e. the value is divided by `10 ^ trailingZeros`.
For `z = 0` the whole string `"0"` is stripped to `""`, which denotes `0`. -/
def stripIntValue (z : ℤ) : ℚ :=
  (z : ℚ) / (10 : ℚ) ^ trailingZeros z.natAbs

/-- The `formatWithPrecision(value, precision)` from `Bot.js`, as the numeric
value denoted by the returned string.  The code computes
`rounded = Math.round(v·10^p)/10^p` and renders `rounded.toFixed(p)`,
then strips `/\.?0+$/`.  For `p ≥ 1` the rendered string contains a
decimal point and the strip only removes trailing fractional zeros
(value preserved); for `p = 0` the strip removes trailing zeros of the
integer itself (value corrupted for multiples of 10). -/
def formatWithPrecision (v : ℚ) (p : ℕ) : ℚ :=
  let z : ℤ := jsRound (v * (10 : ℚ) ^ p)
  if p = 0 then stripIntValue z else (z : ℚ) / (10 : ℚ) ^ p

/-- Static configuration of a `Bot` instance: the options and the pair
metadata consulted by the order path. `volDecimals` is `lot_decimals`
(`volumePrecision`), `priceDecimals` is `pair_decimals`
(`pricePrecision`), `minVol` is `ordermin` (`minimumVolume`). -/
structure Cfg where
  dryRun : Bool
  enforcePrecision : Bool
  volDecimals : ℕ
  priceDecimals : ℕ
  minVol : ℚ
  pairAltname : String
deriving DecidableEq, Repr

/-- The `Bot.applyVolumePrecision`. -/
def applyVolumePrecision (cfg : Cfg) (v : ℚ) : ℚ :=
  if cfg.enforcePrecision then formatWithPrecision v cfg.volDecimals else v

/-- The `Bot.applyPricePrecision`. -/
def applyPricePrecision (cfg : Cfg) (v : ℚ) : ℚ :=
  if cfg.enforcePrecision then formatWithPrecision v cfg.priceDecimals else v

/-- The `Bot._normaliseVolume` (volume is the already-numeric order size;
non-finite inputs are excluded by the `ℚ` embedding). -/
def normaliseVolume (cfg : Cfg) (volume : ℚ) : Except String ℚ :=
  if volume ≤ 0 then
    .error "A positive volume is required for orders"
  else if ¬ cfg.enforcePrecision then
    .ok volume
  else if 0 < cfg.minVol ∧ volume < cfg.minVol then
    .error "Volume is below minimum order size"
  else
    .ok (applyVolumePrecision cfg volume)

/-- The `Bot._normalisePrice`. -/
def normalisePrice (cfg : Cfg) (price : ℚ) : Except String ℚ :=
  if price ≤ 0 then
    .error "A positive price is required for limit orders"
  else
    .ok (applyPricePrecision cfg price)

/-- The Kraken `AddOrder` payload built by `_submitOrder` (the fields the
claims are about; `params` extras are opaque and omitted). `volume` and
`price` carry the numeric value of the formatted strings. -/
structure OrderPayload where
  pair : String
  type : String
  ordertype : String
  volume : Option ℚ
  price : Option ℚ
deriving DecidableEq, Repr

/-- Outward REST traffic performed by the gateway. -/
inductive Effect where
  | addOrder (payload : OrderPayload)
deriving DecidableEq, Repr

/-- Result of `_submitOrder`: the dry-run object `{dryRun: true, payload}`
or the live REST response (represented by the payload that was sent). -/
inductive SubmitResult where
  | dry (payload : OrderPayload)
  | live (payload : OrderPayload)
deriving DecidableEq, Repr

/-- Payload construction inside `_submitOrder` (after
`ensurePairMetadata`): normalise volume and price when present. -/
def buildPayload (cfg : Cfg) (type ordertype : String) (volume price : Option ℚ) :
    Except String OrderPayload :=
  match (match volume with
         | none => .ok none
         | some v => (normaliseVolume cfg v).map some : Except String (Option ℚ)) with
  | .error e => .error e
  | .ok vol =>
    match (match price with
           | none => .ok none
           | some v => (normalisePrice cfg v).map some : Except String (Option ℚ)) with
    | .error e => .error e
    | .ok pr =>
      .ok { pair := cfg.pairAltname, type := type, ordertype := ordertype,
            volume := vol, price := pr }

/-- The `Bot._submitOrder`, returning the REST effects next to the result.
When `options.dryRun` is set the function logs, emits and returns
`{dryRun: true, payload}` without calling `data.addOrder`. -/
def submitOrder (cfg : Cfg) (type ordertype : String) (volume price : Option ℚ) :
    Except String (List Effect × SubmitResult) :=
  if type = "" ∨ ordertype = "" then
    .error "Order type and order side are required"
  else
    match buildPayload cfg type ordertype volume price with
    | .error e => .error e
    | .ok payload =>
      if cfg.dryRun then
        .ok ([], .dry payload)
      else
        .ok ([.addOrder payload], .live payload)

/-- The `Bot.marketBuy`. -/
def marketBuy (cfg : Cfg) (volume : ℚ) : Except String (List Effect × SubmitResult) :=
  submitOrder cfg "buy" "market" (some volume) none

/-- The `Bot.marketSell`. -/
def marketSell (cfg : Cfg) (volume : ℚ) : Except String (List Effect × SubmitResult) :=
  submitOrder cfg "sell" "market" (some volume) none

/-- The `Bot.limitBuy`. -/
def limitBuy (cfg : Cfg) (price volume : ℚ) : Except String (List Effect × SubmitResult) :=
  submitOrder cfg "buy" "limit" (some volume) (some price)

/-- The `Bot.limitSell`. -/
def limitSell (cfg : Cfg) (price volume : ℚ) : Except String (List Effect × SubmitResult) :=
  submitOrder cfg "sell" "limit" (some volume) (some price)

end Bot

/-! ## ExecutionEngine.js: sizing, position ledger, loss-streak cooldown

Source: `src/gpt-bot/libs/ExecutionEngine.js` — `#openLong`,
`#deriveEntryPrice`, `#computeNotional`, `#applyFill`, `#maybeApplyPause`,
`#recalculateDailyPnL`, and the initial state set by the constructor.
-/

namespace ExecEngine

/-- The `riskConfig` record built by the constructor (defaults
`0.75 / 1.5 / 25 / 20 / 2 / 30`). -/
structure RiskCfg where
  maxTradeRiskPct : ℚ
  maxTotalRiskPct : ℚ
  defaultSizePct : ℚ
  minNotional : ℚ
  pauseAfterLosses : ℚ
  pauseMinutes : ℚ
deriving DecidableEq, Repr

/-- The default risk configuration. -/
def defaultRisk : RiskCfg :=
  { maxTradeRiskPct := 3/4, maxTotalRiskPct := 3/2, defaultSizePct := 25,
    minNotional := 20, pauseAfterLosses := 2, pauseMinutes := 30 }

/-- Position side. -/
inductive Side where
  | flat
  | long
deriving DecidableEq, Repr

/-- The `this.position`. -/
structure Position where
  side : Side
  size : ℚ
  avgPrice : ℚ
  openedAt : Option ℚ
  unrealizedR : ℚ
  barsOpen5m : ℕ
deriving DecidableEq, Repr

/-- The engine state mutated by the fill ledger. `dailyStartingBalance`
is `0` while unset (JS `null` and `0` take the same branches in every
guard that reads it). The balance cache is not part of the ledger and
is omitted. -/
structure State where
  position : Position
  realizedPnlQuote : ℚ
  lossCountWindow : List Bool
  pauseUntil : ℚ
  dailyStartingBalance : ℚ
  dailyPnlPct : ℚ
deriving DecidableEq, Repr

/-- Constructor state: FLAT, size 0, average price 0. -/
def initState : State :=
  { position := { side := .flat, size := 0, avgPrice := 0, openedAt := none,
                  unrealizedR := 0, barsOpen5m := 0 },
    realizedPnlQuote := 0, lossCountWindow := [], pauseUntil := 0,
    dailyStartingBalance := 0, dailyPnlPct := 0 }

/-- JS `list.slice(-n)`: the last `n` elements. -/
def lastN (n : ℕ) (l : List α) : List α := l.drop (l.length - n)

/-- The `#recalculateDailyPnL`. -/
def recalcDailyPnl (st : State) : State :=
  if st.dailyStartingBalance = 0 then st
  else if 0 < st.dailyStartingBalance then
    { st with dailyPnlPct :=
        ((st.dailyStartingBalance + st.realizedPnlQuote) - st.dailyStartingBalance)
          / st.dailyStartingBalance * 100 }
  else st

/-- The `#maybeApplyPause`: when the number of losses in the window reaches
`pauseAfterLosses`, start a cooldown and clear the window. -/
def maybeApplyPause (risk : RiskCfg) (now : ℚ) (st : State) : State :=
  if risk.pauseAfterLosses ≤ (st.lossCountWindow.count true : ℚ) then
    { st with pauseUntil := now + risk.pauseMinutes * 60000,
              lossCountWindow := [] }
  else st

/-- Side of a fill dispatched to `#applyFill` (the caller `handleFill`
only forwards lowercase `buy` / `sell`). -/
inductive FillSide where
  | buy
  | sell
deriving DecidableEq, Repr

/-- The `#applyFill(side, quantity, price)`: volume-weighted average on buys;
realised PnL, window push and possible cooldown on sells. `now` is the
`Date.now()` at the call. -/
def applyFill (risk : RiskCfg) (now : ℚ) (side : FillSide) (quantity price : ℚ)
    (st : State) : State :=
  if quantity ≤ 0 ∨ price ≤ 0 then st
  else
    match side with
    | .buy =>
      let value := quantity * price
      let newSize := st.position.size + quantity
      let newAverage := (st.position.avgPrice * st.position.size + value) / newSize
      let pos := { st.position with
        size := newSize, avgPrice := newAverage, side := .long,
        openedAt := some (st.position.openedAt.getD now) }
      recalcDailyPnl { st with position := pos }
    | .sell =>
      let remaining := max 0 (st.position.size - quantity)
      let realized := (price - st.position.avgPrice) * min quantity st.position.size
      let pos0 := { st.position with size := remaining }
      let pos := if remaining = 0 then
          { pos0 with side := .flat, avgPrice := 0, openedAt := none,
                      unrealizedR := 0, barsOpen5m := 0 }
        else pos0
      let st1 := { st with
        position := pos
        realizedPnlQuote := st.realizedPnlQuote + realized
        lossCountWindow := lastN 5 (st.lossCountWindow ++ [decide (realized < 0)]) }
      recalcDailyPnl (maybeApplyPause risk now st1)

/-- A fill trace applied from the constructor state: each entry is
`(now, side, quantity, price)`. -/
def applyFills (risk : RiskCfg) (fills : List (ℚ × FillSide × ℚ × ℚ)) : State :=
  fills.foldl (fun st f => applyFill risk f.1 f.2.1 f.2.2.1 f.2.2.2 st) initState

/-- The `entry` object of a decision as consumed by `#deriveEntryPrice`
(`type` and `offset_bps` after `Number(...)`). -/
structure Entry where
  etype : String
  offsetBps : JsNum
deriving DecidableEq, Repr

/-- The `#deriveEntryPrice(lastPrice, entry)`. -/
def deriveEntryPrice (cfg : Bot.Cfg) (lastPrice : ℚ) (entry : Option Entry) : Option ℚ :=
  if lastPrice ≤ 0 then none
  else
    match entry with
    | none => some lastPrice
    | some e =>
      if e.etype ≠ "limit" then some lastPrice
      else
        match e.offsetBps with
        | .num off =>
          let adjusted := lastPrice * (1 + off / 10000)
          if adjusted ≤ 0 then some lastPrice else some (Bot.applyPricePrecision cfg adjusted)
        | _ => some lastPrice

/-- The `#computeNotional(sizePct)` over the cached quote balance: `null`
when the balance is not positive. -/
def computeNotional (risk : RiskCfg) (quoteBalance sizePct : ℚ) : Option ℚ :=
  if quoteBalance ≤ 0 then none
  else some (min (quoteBalance * (risk.maxTradeRiskPct / 100))
                 (quoteBalance * (sizePct / 100)))

/-- Outcome of `#openLong` (the `status` field plus the data the claims
are about). -/
inductive ExecOutcome where
  | ignoredRes (reason : String)
  | errorRes (reason : String)
  | dryRunRes (payload : Bot.OrderPayload)
  | submittedRes (payload : Bot.OrderPayload)
deriving DecidableEq, Repr

/-- The `#openLong(decision, context)`: order sizing and submission for
`OPEN_LONG` / `ADD`. `lastTrade` is the ticker price (5m close or
fetched ticker), `quoteBalance` the loaded quote balance, and
`sizePctField` the raw `decision.size_pct` (non-finite falls back to
`defaultSizePct`). The local dry-run fill synthesis mutates the ledger
modelled separately by `applyFill` and is not repeated here. -/
def openLong (cfg : Bot.Cfg) (risk : RiskCfg) (quoteBalance lastTrade : ℚ)
    (sizePctField : JsNum) (entry : Option Entry) :
    Except String (List Bot.Effect × ExecOutcome) :=
  let sizePct := match sizePctField with
    | .num q => q
    | _ => risk.defaultSizePct
  if sizePct ≤ 0 then .ok ([], .ignoredRes "size_pct <= 0")
  else
    match deriveEntryPrice cfg lastTrade entry with
    | none => .ok ([], .errorRes "Invalid entry price")
    | some entryPrice =>
      if entryPrice ≤ 0 then .ok ([], .errorRes "Invalid entry price")
      else
        match computeNotional risk quoteBalance sizePct with
        | none => .ok ([], .errorRes "Notional below minimum")
        | some notional =>
          if notional < risk.minNotional then .ok ([], .errorRes "Notional below minimum")
          else
            let quantity := notional / entryPrice
            if quantity ≤ 0 then .ok ([], .errorRes "Invalid quantity")
            else
              match (if (entry.map Entry.etype).getD "" = "limit" then
                       Bot.limitBuy cfg entryPrice quantity
                     else
                       Bot.marketBuy cfg quantity) with
              | .error e => .error e
              | .ok (effs, .dry payload) => .ok (effs, .dryRunRes payload)
              | .ok (effs, .live payload) => .ok (effs, .submittedRes payload)

end ExecEngine

/-! ## EventEngine.js: debounced trigger detection

Source: `src/gpt-bot/libs/EventEngine.js` — constructor state,
`shouldEvaluate`, `#extractTimestamp`, `#updateBucket`, `detect`,
`#maybeEmit`.  The per-snapshot evaluators (`#evaluateTrend` …) compute
the `reasons` list from diffed snapshot state; for the debounce claims
that list is taken as the step input.
-/

namespace EventEngine

/-- Engine options relevant here. -/
structure Cfg where
  debounceMs : ℚ
deriving DecidableEq, Repr

/-- The default configuration (`debounceMs = 60_000`). -/
def defaultCfg : Cfg := { debounceMs := 60000 }

/-- Mutable engine state used by `shouldEvaluate` and the debounce gate:
bucket indices per timeframe, the pending-reason set (insertion
ordered, as a JS `Set`), and the last emission timestamp. -/
structure State where
  bucket5 : Option ℤ
  bucket15 : Option ℤ
  bucket60 : Option ℤ
  pendingReasonSet : List String
  lastEmitTs : ℚ
deriving DecidableEq, Repr

/-- Constructor state: all bucket indices `null`, empty pending set,
`lastEmitTs = 0`. -/
def initState : State :=
  { bucket5 := none, bucket15 := none, bucket60 := none,
    pendingReasonSet := [], lastEmitTs := 0 }

/-- JS `Set.prototype.add`. -/
def setAdd (l : List String) (r : String) : List String :=
  if r ∈ l then l else l ++ [r]

/-- Add each reason to the pending set. -/
def setAddAll (l : List String) (rs : List String) : List String :=
  rs.foldl setAdd l

/-- The price-feed fields read by `#extractTimestamp`, each a JS number
when present. -/
structure PriceData where
  channelTimestampUnix : Option JsNum
  timestampUnix : Option JsNum
  intervalBeginUnix : Option JsNum
deriving DecidableEq, Repr

/-- JS `a || b` for an optional number `a`. -/
def jsOr (a : Option JsNum) (b : JsNum) : JsNum :=
  match a with
  | some v => if v.truthy then v else b
  | none => b

/-- The `#extractTimestamp(priceData)`; `now` is `Date.now()`. -/
def extractTimestamp (d : PriceData) (now : ℚ) : JsNum :=
  jsOr d.channelTimestampUnix
    (jsOr d.timestampUnix (jsOr d.intervalBeginUnix (.num now)))

/-- The `#updateBucket(key, timestamp, minutes)`: `(changed?, new index)`.
A non-finite timestamp changes nothing; a `null` stored index counts as
a change. -/
def updateBucket (ts : JsNum) (minutes : ℚ) (prev : Option ℤ) : Bool × Option ℤ :=
  match ts with
  | .num q =>
    let bucket : ℤ := ⌊q / (minutes * 60000)⌋
    match prev with
    | none => (true, some bucket)
    | some b => if b ≠ bucket then (true, some bucket) else (false, some b)
  | _ => (false, prev)

/-- The `shouldEvaluate(priceData, meta)`: `(returned boolean, new state)`. -/
def shouldEvaluate (cfg : Cfg) (s : State) (d : PriceData) (now : ℚ)
    (thresholdTriggered : Bool) : Bool × State :=
  let ts := extractTimestamp d now
  let r5 := updateBucket ts 5 s.bucket5
  let r15 := updateBucket ts 15 s.bucket15
  let r60 := updateBucket ts 60 s.bucket60
  let evaluate := r5.1 || r15.1 || r60.1 || thresholdTriggered ||
    (decide (s.pendingReasonSet ≠ []) && (ts.subQ s.lastEmitTs).geQ cfg.debounceMs)
  (evaluate, { s with bucket5 := r5.2, bucket15 := r15.2, bucket60 := r60.2 })

/-- The `#maybeEmit(timestamp)`: emit the pending set iff it is non-empty and
either no emission was recorded (`lastEmitTs` falsy, i.e. `0`) or the
debounce interval has elapsed. -/
def maybeEmit (cfg : Cfg) (ts : ℚ) (s : State) : List String × State :=
  if s.pendingReasonSet = [] then ([], s)
  else if s.lastEmitTs = 0 ∨ cfg.debounceMs ≤ ts - s.lastEmitTs then
    (s.pendingReasonSet, { s with pendingReasonSet := [], lastEmitTs := ts })
  else ([], s)

/-- One `detect(snapshot, meta)` call: `ts` is
`snapshot.timestamp || Date.now()`, `reasons` the list produced by the
snapshot evaluators, `thresholdTriggered` is `meta.thresholdTriggered`
(which appends `MomentumSpike(PriceFeed)`). Returns the emitted list
and the new state. -/
def detectStep (cfg : Cfg) (ts : ℚ) (reasons : List String)
    (thresholdTriggered : Bool) (s : State) : List String × State :=
  let rs := if thresholdTriggered then reasons ++ ["MomentumSpike(PriceFeed)"] else reasons
  let s1 := { s with pendingReasonSet := setAddAll s.pendingReasonSet rs }
  maybeEmit cfg ts s1

/-- A sequence of `detect` calls; returns the final state and the list of
emissions `(timestamp, emitted reasons)` in call order. -/
def runDetect (cfg : Cfg) : List (ℚ × List String × Bool) → State → State × List (ℚ × List String)
  | [], s => (s, [])
  | step :: rest, s =>
    let r := detectStep cfg step.1 step.2.1 step.2.2 s
    let rec' := runDetect cfg rest r.2
    (rec'.1, if r.1 = [] then rec'.2 else (step.1, r.1) :: rec'.2)

end EventEngine

/-! ## Level2Logger: order-book state

Source: `src/bot/Level2Logger.js` (= `src/unnamed/part_003`) —
`_onBookEvent`, `_applyLevels`.  The book maps are keyed by
`price.toFixed(12)`; the key is modelled as the integer
`Math.round(price · 10^12)`, which is what the 12-decimal fixed string
denotes.  The SQLite snapshot recording in `_recordSnapshot` is a side
effect on the database, not on the book state, and is omitted.
-/

namespace Level2

/-- A stored book level `{price, qty}`. -/
structure BookLevel where
  price : ℚ
  qty : ℚ
deriving DecidableEq, Repr

/-- An incoming level after `Number(...)` coercion of its fields. -/
structure RawLevel where
  price : JsNum
  qty : JsNum
deriving DecidableEq, Repr

/-- The map key `price.toFixed(12)` as the rounded integer it denotes. -/
def priceKey (p : ℚ) : ℤ := jsRound (p * (10 : ℚ) ^ (12 : ℕ))

/-- One side of the book: a JS `Map` as an insertion-ordered
association list. -/
abbrev BookMap := List (ℤ × BookLevel)

/-- JS `map.delete(key)`. -/
def mapDelete (m : BookMap) (k : ℤ) : BookMap :=
  m.filter (fun e => decide (e.1 ≠ k))

/-- JS `map.set(key, value)`: replace in place, else append. -/
def mapSet : BookMap → ℤ → BookLevel → BookMap
  | [], k, lvl => [(k, lvl)]
  | e :: t, k, lvl => if e.1 = k then (k, lvl) :: t else e :: mapSet t k lvl

/-- The `forEach` body of `_applyLevels` for one level (a `null` entry is
skipped; a non-finite price is skipped; a non-finite or non-positive qty
deletes the key; a positive qty stores `{price, qty}`). -/
def applyLevel (m : BookMap) (lvl : Option RawLevel) : BookMap :=
  match lvl with
  | none => m
  | some l =>
    match l.price with
    | .num p =>
      match l.qty with
      | .num q => if q ≤ 0 then mapDelete m (priceKey p) else mapSet m (priceKey p) ⟨p, q⟩
      | _ => mapDelete m (priceKey p)
    | _ => m

/-- The `_applyLevels(map, levels)`: `levels` may be absent / not an array
(`none`), in which case the map is unchanged. -/
def applyLevels (m : BookMap) (levels : Option (List (Option RawLevel))) : BookMap :=
  match levels with
  | none => m
  | some ls => ls.foldl applyLevel m

/-- The book state kept per symbol. -/
structure BookState where
  bids : BookMap
  asks : BookMap
deriving DecidableEq, Repr

/-- A decoded book event. -/
structure BookEvent where
  etype : String
  bids : Option (List (Option RawLevel))
  asks : Option (List (Option RawLevel))
deriving DecidableEq, Repr

/-- The `_onBookEvent` restricted to the book-state mutation: a snapshot
event clears both sides before applying its levels. -/
def onBookEvent (st : BookState) (ev : BookEvent) : BookState :=
  let st0 := if ev.etype = "snapshot" then { bids := [], asks := [] } else st
  { bids := applyLevels st0.bids ev.bids, asks := applyLevels st0.asks ev.asks }

end Level2

/-! ## GPT5.js: the confluence score

Source: `src/gpt-bot/libs/GPT5.js` — `FeatureBuilder.#computeConfluence`.
-/

namespace Confluence

/-- The timeframe-feature fields consulted by `#computeConfluence`.
`maStack` is the `ma_stack` string when present. -/
structure TfFeat where
  maStack : Option String
  macdHistogram : JsNum
  rsi : JsNum
  priceZ20 : JsNum
  volumeZScore : JsNum
deriving DecidableEq, Repr

/-- The `Number.isFinite(x) && x > c`. -/
def finGt (x : JsNum) (c : ℚ) : Bool :=
  match x with
  | .num q => decide (c < q)
  | _ => false

/-- The `Number.isFinite(x) && x < c`. -/
def finLt (x : JsNum) (c : ℚ) : Bool :=
  match x with
  | .num q => decide (q < c)
  | _ => false

/-- The `if (tf15) {...}` block of `#computeConfluence`, threading the
accumulated `(score, components)`. -/
def tally15 (otf : Option TfFeat) (s : ℤ × List String) : ℤ × List String :=
  match otf with
  | none => s
  | some tf =>
    let a := if tf.maStack = some "bull" then (s.1 + 2, s.2 ++ ["TrendBull(15m)"])
      else if tf.maStack = some "bear" then (s.1 - 2, s.2 ++ ["TrendBear(15m)"])
      else s
    let b := if finGt tf.macdHistogram 0 then (a.1 + 1, a.2 ++ ["MACD>0(15m)"]) else a
    if finGt tf.rsi 55 then (b.1 + 1, b.2 ++ ["RSI>55(15m)"])
    else if finLt tf.rsi 45 then (b.1 - 1, b.2 ++ ["RSI<45(15m)"])
    else b

/-- The `if (tf5) {...}` block of `#computeConfluence`. -/
def tally5 (otf : Option TfFeat) (s : ℤ × List String) : ℤ × List String :=
  match otf with
  | none => s
  | some tf =>
    let a := if finGt tf.priceZ20 (12/10) then (s.1 + 1, s.2 ++ ["PriceZ>1(5m)"])
      else if finLt tf.priceZ20 (-(12/10)) then (s.1 - 1, s.2 ++ ["PriceZ<-1(5m)"])
      else s
    if finGt tf.volumeZScore (3/2) then (a.1 + 1, a.2 ++ ["VolumeSpike(5m)"]) else a

/-- The `if (tf1h) {...}` block of `#computeConfluence`. -/
def tally1h (otf : Option TfFeat) (s : ℤ × List String) : ℤ × List String :=
  match otf with
  | none => s
  | some tf =>
    if tf.maStack = some "bull" then (s.1 + 1, s.2 ++ ["TrendBull(1h)"])
    else if tf.maStack = some "bear" then (s.1 - 1, s.2 ++ ["TrendBear(1h)"])
    else s

/-- The `#computeConfluence(timeframes)`: the accumulated `(score,
components)` in source order, starting from `(0, [])`. -/
def computeConfluence (tf5 tf15 tf1h : Option TfFeat) : ℤ × List String :=
  tally1h tf1h (tally5 tf5 (tally15 tf15 (0, [])))

/-- The confluence score as the claim words it (including a `−1` term for
a negative 15m MACD histogram): a signed sum of independent terms.
This follows the claim text, to be compared with `computeConfluence`;
it is not translated from the source. -/
def claimScore (tf5 tf15 tf1h : Option TfFeat) : ℤ :=
  (match tf15 with
   | none => 0
   | some tf =>
     (if tf.maStack = some "bull" then 2 else if tf.maStack = some "bear" then -2 else 0)
     + (if finGt tf.macdHistogram 0 then 1 else if finLt tf.macdHistogram 0 then -1 else 0)
     + (if finGt tf.rsi 55 then 1 else if finLt tf.rsi 45 then -1 else 0))
  + (match tf5 with
     | none => 0
     | some tf =>
       (if finGt tf.priceZ20 (12/10) then 1 else if finLt tf.priceZ20 (-(12/10)) then -1 else 0)
       + (if finGt tf.volumeZScore (3/2) then 1 else 0))
  + (match tf1h with
     | none => 0
     | some tf =>
       if tf.maStack = some "bull" then 1 else if tf.maStack = some "bear" then -1 else 0)

/-- One scoring term as the amended claim words it: a contribution and
its component tag (`none` when the term does not fire). -/
def term (cond : Bool) (delta : ℤ) (tag : String) : ℤ × List String :=
  if cond then (delta, [tag]) else (0, [])

/-- The confluence result as the amended claim words it: the signed sum
of the six terms, with exactly one tag recorded per contributing term,
in source order; the 15m MACD histogram contributes `+1` when positive
and nothing otherwise. -/
def amendedConfluence (tf5 tf15 tf1h : Option TfFeat) : ℤ × List String :=
  let terms15 : List (ℤ × List String) := match tf15 with
    | none => []
    | some tf =>
      [ (if tf.maStack = some "bull" then (2, ["TrendBull(15m)"])
         else if tf.maStack = some "bear" then (-2, ["TrendBear(15m)"]) else (0, [])),
        term (finGt tf.macdHistogram 0) 1 "MACD>0(15m)",
        (if finGt tf.rsi 55 then (1, ["RSI>55(15m)"])
         else if finLt tf.rsi 45 then (-1, ["RSI<45(15m)"]) else (0, [])) ]
  let terms5 : List (ℤ × List String) := match tf5 with
    | none => []
    | some tf =>
      [ (if finGt tf.priceZ20 (12/10) then (1, ["PriceZ>1(5m)"])
         else if finLt tf.priceZ20 (-(12/10)) then (-1, ["PriceZ<-1(5m)"]) else (0, [])),
        term (finGt tf.volumeZScore (3/2)) 1 "VolumeSpike(5m)" ]
  let terms1h : List (ℤ × List String) := match tf1h with
    | none => []
    | some tf =>
      [ (if tf.maStack = some "bull" then (1, ["TrendBull(1h)"])
         else if tf.maStack = some "bear" then (-1, ["TrendBear(1h)"]) else (0, [])) ]
  let all := terms15 ++ terms5 ++ terms1h
  ((all.map Prod.fst).sum, (all.map Prod.snd).flatten)

end Confluence

/-! ## LLMDecider.js: decision normalisation

Source: `src/gpt-bot/libs/LLMDecider.js` — `#normaliseDecision`,
`#defaultDecision`.
-/

namespace Decider

/-- A JS value as it matters to `followups` handling: a string or
anything else. -/
inductive JVal where
  | str (s : String)
  | other
deriving DecidableEq, Repr

/-- Is this JS value a string? -/
def JVal.isStr : JVal → Bool
  | .str _ => true
  | .other => false

/-- The raw `decision.followups` field: an array (of arbitrary values)
or not an array. -/
inductive FolField where
  | notArray
  | arr (l : List JVal)
deriving DecidableEq, Repr

/-- The raw `decision.entry` object (only its `type` field is ever read
downstream; `#normaliseDecision` itself reads none of it). -/
structure RawEntry where
  etype : Option String
deriving DecidableEq, Repr

/-- A raw decision object (`decision` after `#coerceDecision`):
`action` is the string the template coerces to (`none` for a falsy
field, which stringifies through `|| ''`); the numeric fields are
`Number(...)` results. -/
structure RawDecision where
  action : Option String
  sizePct : JsNum
  stopAtr : JsNum
  tpAtr : JsNum
  entry : Option RawEntry
  followups : FolField
  comment : Option String
deriving DecidableEq, Repr

/-- A normalised decision. `#defaultDecision` only sets `action` and
`comment`; the remaining fields are then JS `undefined`, modelled as
`none` / `[]`. -/
structure NormDecision where
  action : String
  sizePct : Option ℚ
  stopAtr : Option ℚ
  tpAtr : Option ℚ
  entry : Option RawEntry
  followups : List JVal
  comment : String
deriving DecidableEq, Repr

/-- The `#defaultDecision(comment)`. -/
def defaultDecision (comment : String) : NormDecision :=
  { action := "HOLD", sizePct := none, stopAtr := none, tpAtr := none,
    entry := none, followups := [], comment := comment }

/-- The allowed action set. -/
def allowedActions : List String :=
  ["HOLD", "OPEN_LONG", "ADD", "TRIM", "CLOSE_PARTIAL", "CLOSE_ALL",
   "MOVE_STOP", "SET_TP", "PAUSE"]

/-- The `Number.isFinite(Number(x)) ? Number(x) : null`. -/
def finOpt (x : JsNum) : Option ℚ :=
  match x with
  | .num q => some q
  | _ => none

/-- The `#normaliseDecision(decision, source)`; `none` stands for a missing
or non-object decision. -/
def normaliseDecision : Option RawDecision → String → NormDecision
  | none, source => defaultDecision ("Invalid " ++ source)
  | some dec, source =>
    let action := jsToUpper (dec.action.getD "")
    if action ∈ allowedActions then
      { action := action
        sizePct := finOpt dec.sizePct
        stopAtr := finOpt dec.stopAtr
        tpAtr := finOpt dec.tpAtr
        entry := dec.entry
        followups := match dec.followups with
          | .arr l => l
          | .notArray => []
        comment := match dec.comment with
          | some s => s.trim
          | none => source }
    else
      defaultDecision ("Unsupported action \"" ++ dec.action.getD "undefined" ++ "\"")

end Decider

/-! ## Data.js REST client: retry policy

Source: `src/limit-ui/Data.js` (= `src/unnamed/part_007`) —
`makeRequest` and `getOpenOrders`.  A call is modelled against an
oracle giving the outcome of each network attempt; the loop returns
`(result, attempts used, backoff waits in ms)`.
-/

namespace RestData

/-- The retry loop of `makeRequest`: attempts are numbered from 1; on
failure, unless this was attempt `maxR`, wait `backoff · attempt` ms and
try again.  Structural fuel mirrors the bounded `for` loop (the fuel
never runs out when `fuel ≥ maxR − attempt + 1`). -/
def retryLoop (outcomes : ℕ → Except String α) (backoff maxR : ℕ) :
    ℕ → ℕ → List ℕ → Except String α × ℕ × List ℕ
  | 0, attempt, waits => (outcomes attempt, attempt, waits)
  | fuel + 1, attempt, waits =>
    match outcomes attempt with
    | .ok a => (.ok a, attempt, waits)
    | .error e =>
      if attempt = maxR then (.error e, attempt, waits)
      else retryLoop outcomes backoff maxR fuel (attempt + 1) (waits ++ [backoff * attempt])

/-- The `Data.makeRequest`: up to 3 attempts, linear backoff 250 ms ×
attempt, the last error surfaced. -/
def makeRequest (outcomes : ℕ → Except String α) : Except String α × ℕ × List ℕ :=
  retryLoop outcomes 250 3 3 1 []

/-- The retry loop of `getOpenOrders` over the results of the inner
`makeRequest` calls: stop at attempt 5 or on any error whose text does
not contain `"Invalid nonce"` or `"timeout"`; errors are surfaced
wrapped in `Failed to fetch open orders:`. -/
def openOrdersLoop (inner : ℕ → Except String α) :
    ℕ → ℕ → List ℕ → Except String α × ℕ × List ℕ
  | 0, attempt, waits => (inner attempt, attempt, waits)
  | fuel + 1, attempt, waits =>
    match inner attempt with
    | .ok a => (.ok a, attempt, waits)
    | .error msg =>
      if attempt = 5 ∨ (¬ jsIncludes msg "Invalid nonce" ∧ ¬ jsIncludes msg "timeout") then
        (.error ("Failed to fetch open orders: " ++ msg), attempt, waits)
      else openOrdersLoop inner fuel (attempt + 1) (waits ++ [250 * attempt])

/-- The `Data.getOpenOrders`: each outer attempt `i` performs a full
`makeRequest` over `outcomes i`. -/
def getOpenOrders (outcomes : ℕ → ℕ → Except String α) : Except String α × ℕ × List ℕ :=
  openOrdersLoop (fun i => (makeRequest (outcomes i)).1) 5 1 []

end RestData

/-- A concrete bot configuration for witnesses: dry-run on, precision
enforced, Kraken-typical decimals. -/
def exampleDryCfg : Bot.Cfg :=
  { dryRun := true, enforcePrecision := true, volDecimals := 8,
    priceDecimals := 6, minVol := 1, pairAltname := "XDGUSD" }

/-- A configuration whose pair metadata has `lot_decimals = 0`, the
regime in which the trailing-zero strip of `formatWithPrecision`
corrupts integer volumes. -/
def exampleZeroDecimalsCfg : Bot.Cfg :=
  { dryRun := true, enforcePrecision := true, volDecimals := 0,
    priceDecimals := 0, minVol := 1, pairAltname := "TESTPAIR" }

/-! ## Theorems -/

/-- C1: with `dryRun` active, `_submitOrder` (and each gateway wrapper
`marketBuy`, `marketSell`, `limitBuy`, `limitSell`) performs no REST
`AddOrder` call and returns exactly the `{dryRun: true, payload}` object
carrying the constructed order payload. -/
theorem submitOrder_dryRun_no_rest (cfg : Bot.Cfg) (hdry : cfg.dryRun = true) :
    (∀ ty oty vol pr effs res,
      Bot.submitOrder cfg ty oty vol pr = .ok (effs, res) →
        effs = [] ∧ ∃ payload, Bot.buildPayload cfg ty oty vol pr = .ok payload ∧
          res = .dry payload)
    ∧ (∀ v effs res, Bot.marketBuy cfg v = .ok (effs, res) →
        effs = [] ∧ ∃ payload, res = .dry payload)
    ∧ (∀ v effs res, Bot.marketSell cfg v = .ok (effs, res) →
        effs = [] ∧ ∃ payload, res = .dry payload)
    ∧ (∀ p v effs res, Bot.limitBuy cfg p v = .ok (effs, res) →
        effs = [] ∧ ∃ payload, res = .dry payload)
    ∧ (∀ p v effs res, Bot.limitSell cfg p v = .ok (effs, res) →
        effs = [] ∧ ∃ payload, res = .dry payload) := by
  have main : ∀ ty oty vol pr effs res,
      Bot.submitOrder cfg ty oty vol pr = .ok (effs, res) →
        effs = [] ∧ ∃ payload, Bot.buildPayload cfg ty oty vol pr = .ok payload ∧
          res = .dry payload := by
    intro ty oty vol pr effs res h
    unfold Bot.submitOrder at h
    split at h
    · simp at h
    · cases hb : Bot.buildPayload cfg ty oty vol pr with
      | error e => rw [hb] at h; simp [Bind.bind, Except.bind] at h
      | ok payload =>
        rw [hb] at h
        simp only [Bind.bind, Except.bind, hdry, if_true, pure, Except.pure] at h
        cases h
        exact ⟨rfl, payload, rfl, rfl⟩
  refine ⟨main, ?_, ?_, ?_, ?_⟩
  · intro v effs res h
    obtain ⟨h1, payload, _, h2⟩ := main _ _ _ _ _ _ h
    exact ⟨h1, payload, h2⟩
  · intro v effs res h
    obtain ⟨h1, payload, _, h2⟩ := main _ _ _ _ _ _ h
    exact ⟨h1, payload, h2⟩
  · intro p v effs res h
    obtain ⟨h1, payload, _, h2⟩ := main _ _ _ _ _ _ h
    exact ⟨h1, payload, h2⟩
  · intro p v effs res h
    obtain ⟨h1, payload, _, h2⟩ := main _ _ _ _ _ _ h
    exact ⟨h1, payload, h2⟩

/-- Witness for `submitOrder_dryRun_no_rest` at a concrete
configuration. -/
theorem submitOrder_dryRun_no_rest_witness :
    exampleDryCfg.dryRun = true ∧
    ((∀ ty oty vol pr effs res,
      Bot.submitOrder exampleDryCfg ty oty vol pr = .ok (effs, res) →
        effs = [] ∧ ∃ payload, Bot.buildPayload exampleDryCfg ty oty vol pr = .ok payload ∧
          res = .dry payload)
    ∧ (∀ v effs res, Bot.marketBuy exampleDryCfg v = .ok (effs, res) →
        effs = [] ∧ ∃ payload, res = .dry payload)
    ∧ (∀ v effs res, Bot.marketSell exampleDryCfg v = .ok (effs, res) →
        effs = [] ∧ ∃ payload, res = .dry payload)
    ∧ (∀ p v effs res, Bot.limitBuy exampleDryCfg p v = .ok (effs, res) →
        effs = [] ∧ ∃ payload, res = .dry payload)
    ∧ (∀ p v effs res, Bot.limitSell exampleDryCfg p v = .ok (effs, res) →
        effs = [] ∧ ∃ payload, res = .dry payload)) :=
  ⟨rfl, submitOrder_dryRun_no_rest exampleDryCfg rfl⟩

/-- Looking up a key just deleted from a book map finds nothing. -/
theorem lookup_mapDelete (m : Level2.BookMap) (k : ℤ) :
    (Level2.mapDelete m k).lookup k = none := by
  induction m with
  | nil => rfl
  | cons e t ih =>
    obtain ⟨a, b⟩ := e
    by_cases h : a = k
    · have he : Level2.mapDelete ((a, b) :: t) k = Level2.mapDelete t k := by
        simp [Level2.mapDelete, h]
      rw [he]; exact ih
    · have he : Level2.mapDelete ((a, b) :: t) k = (a, b) :: Level2.mapDelete t k := by
        simp [Level2.mapDelete, h]
      have hk : (k == a) = false := by simp [Ne.symm h]
      rw [he]
      simp only [List.lookup, hk]
      exact ih

/-- Looking up a key just stored in a book map finds the stored level. -/
theorem lookup_mapSet (m : Level2.BookMap) (k : ℤ) (lvl : Level2.BookLevel) :
    (Level2.mapSet m k lvl).lookup k = some lvl := by
  induction m with
  | nil => simp [Level2.mapSet, List.lookup]
  | cons e t ih =>
    obtain ⟨a, b⟩ := e
    by_cases h : a = k
    · simp [Level2.mapSet, h, List.lookup]
    · have hk : (k == a) = false := by simp [Ne.symm h]
      simp only [Level2.mapSet, h, if_false, List.lookup, hk]
      exact ih

/-- C3: applying a delta level with `qty ≤ 0` removes that price key from
that side of the book map; a level with `qty > 0` leaves the key present with
exactly that qty; a snapshot-type event clears both the bids and asks
maps before applying its levels. -/
theorem book_update_semantics :
    (∀ (m : Level2.BookMap) (p q : ℚ), q ≤ 0 →
      (Level2.applyLevel m (some ⟨.num p, .num q⟩)).lookup (Level2.priceKey p) = none)
    ∧ (∀ (m : Level2.BookMap) (p q : ℚ), 0 < q →
      (Level2.applyLevel m (some ⟨.num p, .num q⟩)).lookup (Level2.priceKey p)
        = some ⟨p, q⟩)
    ∧ (∀ (st : Level2.BookState) (ev : Level2.BookEvent), ev.etype = "snapshot" →
      Level2.onBookEvent st ev =
        { bids := Level2.applyLevels [] ev.bids,
          asks := Level2.applyLevels [] ev.asks }) := by
  refine ⟨?_, ?_, ?_⟩
  · intro m p q hq
    simp only [Level2.applyLevel, if_pos hq]
    exact lookup_mapDelete m (Level2.priceKey p)
  · intro m p q hq
    simp only [Level2.applyLevel, if_neg (not_le.mpr hq)]
    exact lookup_mapSet m (Level2.priceKey p) ⟨p, q⟩
  · intro st ev hev
    simp [Level2.onBookEvent, hev]

/-- Witness for `book_update_semantics` at concrete inputs. -/
theorem book_update_semantics_witness :
    ((0 : ℚ) ≤ 0 ∧
      (Level2.applyLevel [] (some ⟨.num (1/2), .num 0⟩)).lookup (Level2.priceKey (1/2)) = none)
    ∧ ((0 : ℚ) < 3 ∧
      (Level2.applyLevel [(Level2.priceKey (1/2), ⟨1/2, 7⟩)]
        (some ⟨.num (1/2), .num 3⟩)).lookup (Level2.priceKey (1/2)) = some ⟨1/2, 3⟩)
    ∧ ((Level2.BookEvent.mk "snapshot" (some [some ⟨.num 2, .num 5⟩]) none).etype = "snapshot" ∧
      Level2.onBookEvent ⟨[(Level2.priceKey 9, ⟨9, 1⟩)], [(Level2.priceKey 8, ⟨8, 1⟩)]⟩
        (Level2.BookEvent.mk "snapshot" (some [some ⟨.num 2, .num 5⟩]) none) =
        { bids := Level2.applyLevels [] (some [some ⟨.num 2, .num 5⟩]),
          asks := Level2.applyLevels [] none }) :=
  ⟨⟨le_refl 0, book_update_semantics.1 [] (1/2) 0 le_rfl⟩,
   ⟨by norm_num, book_update_semantics.2.1 [(Level2.priceKey (1/2), ⟨1/2, 7⟩)] (1/2) 3 (by norm_num)⟩,
   ⟨rfl, book_update_semantics.2.2 _ _ rfl⟩⟩

/-- The `#recalculateDailyPnL` does not touch the position. -/
theorem recalcDailyPnl_position (st : ExecEngine.State) :
    (ExecEngine.recalcDailyPnl st).position = st.position := by
  unfold ExecEngine.recalcDailyPnl
  split <;> try rfl
  split <;> rfl

/-- The `#maybeApplyPause` does not touch the position. -/
theorem maybeApplyPause_position (risk : ExecEngine.RiskCfg) (now : ℚ)
    (st : ExecEngine.State) :
    (ExecEngine.maybeApplyPause risk now st).position = st.position := by
  unfold ExecEngine.maybeApplyPause
  split <;> rfl

/-- One `#applyFill` step preserves the ledger invariant
`(FLAT ∧ size = 0 ∧ avg = 0) ∨ (LONG ∧ size > 0 ∧ avg > 0)`. -/
theorem applyFill_preserves_inv (risk : ExecEngine.RiskCfg) (now : ℚ)
    (side : ExecEngine.FillSide) (qty price : ℚ) (st : ExecEngine.State)
    (hinv : (st.position.side = .flat ∧ st.position.size = 0 ∧ st.position.avgPrice = 0)
      ∨ (st.position.side = .long ∧ 0 < st.position.size ∧ 0 < st.position.avgPrice)) :
    let st' := ExecEngine.applyFill risk now side qty price st
    (st'.position.side = .flat ∧ st'.position.size = 0 ∧ st'.position.avgPrice = 0)
      ∨ (st'.position.side = .long ∧ 0 < st'.position.size ∧ 0 < st'.position.avgPrice) := by
  intro st'
  by_cases hg : qty ≤ 0 ∨ price ≤ 0
  · have hst : st' = st := by
      show ExecEngine.applyFill risk now side qty price st = st
      unfold ExecEngine.applyFill
      rw [if_pos hg]
    rw [hst]; exact hinv
  · push_neg at hg
    obtain ⟨hq, hp⟩ := hg
    have hsize : 0 ≤ st.position.size := by
      rcases hinv with ⟨_, h, _⟩ | ⟨_, h, _⟩
      · exact h.ge
      · exact h.le
    cases side with
    | buy =>
      have hst : st'.position =
          { st.position with
            size := st.position.size + qty
            avgPrice := (st.position.avgPrice * st.position.size + qty * price)
              / (st.position.size + qty)
            side := .long
            openedAt := some (st.position.openedAt.getD now) } := by
        show (ExecEngine.applyFill risk now .buy qty price st).position = _
        unfold ExecEngine.applyFill
        rw [if_neg (by push_neg; exact ⟨hq, hp⟩)]
        rw [recalcDailyPnl_position]
      refine Or.inr ?_
      rw [hst]
      refine ⟨rfl, by positivity, ?_⟩
      have hnum : 0 < st.position.avgPrice * st.position.size + qty * price := by
        rcases hinv with ⟨_, h0, ha⟩ | ⟨_, h0, ha⟩
        · rw [h0, ha]; simpa using mul_pos hq hp
        · have := mul_pos ha h0
          have := mul_pos hq hp
          linarith
      exact div_pos hnum (by positivity)
    | sell =>
      have hst : st'.position =
          (if max 0 (st.position.size - qty) = 0 then
            { st.position with
              size := max 0 (st.position.size - qty), side := .flat, avgPrice := 0,
              openedAt := none, unrealizedR := 0, barsOpen5m := 0 }
          else { st.position with size := max 0 (st.position.size - qty) }) := by
        show (ExecEngine.applyFill risk now .sell qty price st).position = _
        unfold ExecEngine.applyFill
        rw [if_neg (by push_neg; exact ⟨hq, hp⟩)]
        simp only [recalcDailyPnl_position, maybeApplyPause_position]
      by_cases hr : max 0 (st.position.size - qty) = 0
      · rw [hst, if_pos hr]
        exact Or.inl ⟨rfl, hr, rfl⟩
      · have hrpos : 0 < max 0 (st.position.size - qty) :=
          lt_of_le_of_ne (le_max_left 0 _) (Ne.symm hr)
        have hbig : qty < st.position.size := by
          by_contra hle
          push_neg at hle
          exact hr (max_eq_left (by linarith))
        have hlong : st.position.side = .long ∧ 0 < st.position.size ∧ 0 < st.position.avgPrice := by
          rcases hinv with ⟨_, h0, _⟩ | h
          · exfalso; rw [h0] at hbig; linarith
          · exact h
        rw [hst, if_neg hr]
        exact Or.inr ⟨hlong.1, hrpos, hlong.2.2⟩

/-- C8: after any sequence of buy/sell fills applied from the initial
state, `side = FLAT ⇔ size = 0 ⇔ avg_price = 0`. -/
theorem position_flat_iff_size_zero_iff_avg_zero (risk : ExecEngine.RiskCfg)
    (fills : List (ℚ × ExecEngine.FillSide × ℚ × ℚ)) :
    ((ExecEngine.applyFills risk fills).position.side = .flat
      ↔ (ExecEngine.applyFills risk fills).position.size = 0)
    ∧ ((ExecEngine.applyFills risk fills).position.size = 0
      ↔ (ExecEngine.applyFills risk fills).position.avgPrice = 0) := by
  have key : ∀ (l : List (ℚ × ExecEngine.FillSide × ℚ × ℚ)) (st : ExecEngine.State),
      ((st.position.side = .flat ∧ st.position.size = 0 ∧ st.position.avgPrice = 0)
        ∨ (st.position.side = .long ∧ 0 < st.position.size ∧ 0 < st.position.avgPrice)) →
      (((l.foldl (fun s f => ExecEngine.applyFill risk f.1 f.2.1 f.2.2.1 f.2.2.2 s) st).position.side = .flat
          ∧ (l.foldl (fun s f => ExecEngine.applyFill risk f.1 f.2.1 f.2.2.1 f.2.2.2 s) st).position.size = 0
          ∧ (l.foldl (fun s f => ExecEngine.applyFill risk f.1 f.2.1 f.2.2.1 f.2.2.2 s) st).position.avgPrice = 0)
        ∨ ((l.foldl (fun s f => ExecEngine.applyFill risk f.1 f.2.1 f.2.2.1 f.2.2.2 s) st).position.side = .long
          ∧ 0 < (l.foldl (fun s f => ExecEngine.applyFill risk f.1 f.2.1 f.2.2.1 f.2.2.2 s) st).position.size
          ∧ 0 < (l.foldl (fun s f => ExecEngine.applyFill risk f.1 f.2.1 f.2.2.1 f.2.2.2 s) st).position.avgPrice)) := by
    intro l
    induction l with
    | nil => intro st h; exact h
    | cons f rest ih =>
      intro st h
      exact ih _ (applyFill_preserves_inv risk f.1 f.2.1 f.2.2.1 f.2.2.2 st h)
  have hres := key fills ExecEngine.initState (Or.inl ⟨rfl, rfl, rfl⟩)
  unfold ExecEngine.applyFills
  rcases hres with ⟨h1, h2, h3⟩ | ⟨h1, h2, h3⟩
  · exact ⟨⟨fun _ => h2, fun _ => h1⟩, ⟨fun _ => h3, fun _ => h2⟩⟩
  · constructor
    · rw [h1]
      constructor
      · intro hc; exact absurd hc (by simp)
      · intro hc; exact absurd hc h2.ne'
    · constructor
      · intro hc; exact absurd hc h2.ne'
      · intro hc; exact absurd hc h3.ne'

/-- The `#recalculateDailyPnL` does not touch `pauseUntil` or the loss
window. -/
theorem recalcDailyPnl_pause_fields (st : ExecEngine.State) :
    (ExecEngine.recalcDailyPnl st).pauseUntil = st.pauseUntil
    ∧ (ExecEngine.recalcDailyPnl st).lossCountWindow = st.lossCountWindow := by
  unfold ExecEngine.recalcDailyPnl
  constructor <;> (split <;> try rfl) <;> (split <;> rfl)

/-- C10: when a sell fill brings the number of losses in the last-5
outcome window to at least `pauseAfterLosses`, the engine sets
`pauseUntil = now + pauseMinutes · 60000` and clears the loss window,
so the next cooldown requires a full new streak. -/
theorem sell_loss_streak_triggers_pause (risk : ExecEngine.RiskCfg)
    (now qty price : ℚ) (st : ExecEngine.State)
    (hq : 0 < qty) (hp : 0 < price)
    (hcount : risk.pauseAfterLosses ≤
      (((ExecEngine.lastN 5 (st.lossCountWindow ++
        [decide ((price - st.position.avgPrice) * min qty st.position.size < 0)])).count true : ℕ) : ℚ)) :
    (ExecEngine.applyFill risk now .sell qty price st).pauseUntil
        = now + risk.pauseMinutes * 60000
    ∧ (ExecEngine.applyFill risk now .sell qty price st).lossCountWindow = [] := by
  have hg : ¬ (qty ≤ 0 ∨ price ≤ 0) := by push_neg; exact ⟨hq, hp⟩
  unfold ExecEngine.applyFill
  rw [if_neg hg]
  simp only [(recalcDailyPnl_pause_fields _).1, (recalcDailyPnl_pause_fields _).2]
  unfold ExecEngine.maybeApplyPause
  rw [if_pos hcount]
  exact ⟨rfl, rfl⟩

/-- Witness for `sell_loss_streak_triggers_pause`: a second losing sell
with one loss already in the window triggers the 30-minute cooldown. -/
theorem sell_loss_streak_triggers_pause_witness :
    (0 : ℚ) < 100 ∧ (0 : ℚ) < 49/50 ∧
    (ExecEngine.defaultRisk.pauseAfterLosses ≤
      (((ExecEngine.lastN 5 ([true] ++
        [decide (((49/50 : ℚ) - 1) * min 100 (100 : ℚ) < 0)])).count true : ℕ) : ℚ)) ∧
    ((ExecEngine.applyFill ExecEngine.defaultRisk 1000000 .sell 100 (49/50)
        { position := { side := .long, size := 100, avgPrice := 1, openedAt := some 0,
                        unrealizedR := 0, barsOpen5m := 0 },
          realizedPnlQuote := 0, lossCountWindow := [true], pauseUntil := 0,
          dailyStartingBalance := 0, dailyPnlPct := 0 }).pauseUntil
        = 1000000 + ExecEngine.defaultRisk.pauseMinutes * 60000
      ∧ (ExecEngine.applyFill ExecEngine.defaultRisk 1000000 .sell 100 (49/50)
        { position := { side := .long, size := 100, avgPrice := 1, openedAt := some 0,
                        unrealizedR := 0, barsOpen5m := 0 },
          realizedPnlQuote := 0, lossCountWindow := [true], pauseUntil := 0,
          dailyStartingBalance := 0, dailyPnlPct := 0 }).lossCountWindow = []) :=
  ⟨by norm_num, by norm_num, by norm_num [ExecEngine.lastN, ExecEngine.defaultRisk],
   sell_loss_streak_triggers_pause ExecEngine.defaultRisk 1000000 100 (49/50) _
     (by norm_num) (by norm_num) (by norm_num [ExecEngine.lastN, ExecEngine.defaultRisk])⟩

/-- C9 counterexample: on a freshly constructed engine the first
`shouldEvaluate` returns `false` — not `true` — when the price data
carries a truthy non-finite timestamp (e.g. `channelTimestampUnix =
Infinity`), because `#updateBucket` ignores non-finite timestamps
before consulting the null bucket indices. -/
theorem shouldEvaluate_first_call_false_on_nonfinite :
    (EventEngine.shouldEvaluate EventEngine.defaultCfg EventEngine.initState
      { channelTimestampUnix := some .inf, timestampUnix := none,
        intervalBeginUnix := none } 1000 false).1 = false := by
  decide

/-- C9 (amended): on a freshly constructed engine, the first
`shouldEvaluate` call returns `true` whenever the extracted timestamp is
a finite number (in particular whenever the timestamp fields are absent
or falsy, since the `Date.now()` fallback is finite), because
initialising a null 5m/15m/60m bucket index counts as a bucket
change. -/
theorem shouldEvaluate_first_call_true (cfg : EventEngine.Cfg)
    (d : EventEngine.PriceData) (now : ℚ) (thr : Bool)
    (hfin : (EventEngine.extractTimestamp d now).isFinite = true) :
    (EventEngine.shouldEvaluate cfg EventEngine.initState d now thr).1 = true := by
  obtain ⟨q, hq⟩ : ∃ q, EventEngine.extractTimestamp d now = .num q := by
    cases h : EventEngine.extractTimestamp d now
    · exact ⟨_, rfl⟩
    all_goals (rw [h] at hfin; simp [JsNum.isFinite] at hfin)
  simp [EventEngine.shouldEvaluate, hq, EventEngine.updateBucket, EventEngine.initState]

/-- Witness for `shouldEvaluate_first_call_true`: with no timestamp
fields the `Date.now()` fallback is used and the first call evaluates. -/
theorem shouldEvaluate_first_call_true_witness :
    (EventEngine.extractTimestamp
      { channelTimestampUnix := none, timestampUnix := none,
        intervalBeginUnix := none } 12345).isFinite = true ∧
    (EventEngine.shouldEvaluate EventEngine.defaultCfg EventEngine.initState
      { channelTimestampUnix := none, timestampUnix := none,
        intervalBeginUnix := none } 12345 false).1 = true :=
  ⟨by decide, shouldEvaluate_first_call_true EventEngine.defaultCfg _ 12345 false (by decide)⟩

/-- C4 counterexample: for a 15m timeframe whose MACD histogram is
negative (and no other signal firing), the confluence score computed by the code is
`0` with no components, while the claimed formula (`−1` for a negative
15m MACD histogram) gives `−1`. -/
theorem confluence_negative_macd_counterexample :
    (Confluence.computeConfluence none
      (some { maStack := none, macdHistogram := .num (-1), rsi := .nan,
              priceZ20 := .nan, volumeZScore := .nan }) none) = (0, [])
    ∧ Confluence.claimScore none
      (some { maStack := none, macdHistogram := .num (-1), rsi := .nan,
              priceZ20 := .nan, volumeZScore := .nan }) none = -1 := by
  decide

/-- C4 (amended): the confluence score is the signed sum +2/−2 for a
bull/bear 15m ma_stack, +1 for a positive 15m MACD histogram (a
negative histogram contributes nothing), +1 if 15m RSI > 55 and −1 if
RSI < 45, +1 if 5m price_z20 > 1.2 and −1 if < −1.2, +1 if 5m
volume_z > 1.5, and +1/−1 for a bull/bear 1h ma_stack; the components
list records one tag per contributing term. -/
theorem computeConfluence_eq_amended (tf5 tf15 tf1h : Option Confluence.TfFeat) :
    Confluence.computeConfluence tf5 tf15 tf1h
      = Confluence.amendedConfluence tf5 tf15 tf1h := by
  have h15 : ∀ otf s, Confluence.tally15 otf s
      = (s.1 + (Confluence.tally15 otf (0, [])).1,
         s.2 ++ (Confluence.tally15 otf (0, [])).2) := by
    intro otf s
    cases otf with
    | none => simp [Confluence.tally15]
    | some tf =>
      simp only [Confluence.tally15]
      split_ifs <;> simp <;> omega
  have h5 : ∀ otf s, Confluence.tally5 otf s
      = (s.1 + (Confluence.tally5 otf (0, [])).1,
         s.2 ++ (Confluence.tally5 otf (0, [])).2) := by
    intro otf s
    cases otf with
    | none => simp [Confluence.tally5]
    | some tf =>
      simp only [Confluence.tally5]
      split_ifs <;> simp <;> omega
  have h1h : ∀ otf s, Confluence.tally1h otf s
      = (s.1 + (Confluence.tally1h otf (0, [])).1,
         s.2 ++ (Confluence.tally1h otf (0, [])).2) := by
    intro otf s
    cases otf with
    | none => simp [Confluence.tally1h]
    | some tf =>
      simp only [Confluence.tally1h]
      split_ifs <;> simp <;> omega
  have e15 : Confluence.tally15 tf15 (0, [])
      = ((match tf15 with
          | none => ([] : List (ℤ × List String))
          | some tf =>
            [ (if tf.maStack = some "bull" then ((2 : ℤ), ["TrendBull(15m)"])
               else if tf.maStack = some "bear" then (-2, ["TrendBear(15m)"]) else (0, [])),
              Confluence.term (Confluence.finGt tf.macdHistogram 0) 1 "MACD>0(15m)",
              (if Confluence.finGt tf.rsi 55 then ((1 : ℤ), ["RSI>55(15m)"])
               else if Confluence.finLt tf.rsi 45 then (-1, ["RSI<45(15m)"]) else (0, [])) ]).map Prod.fst |>.sum,
         (match tf15 with
          | none => ([] : List (ℤ × List String))
          | some tf =>
            [ (if tf.maStack = some "bull" then ((2 : ℤ), ["TrendBull(15m)"])
               else if tf.maStack = some "bear" then (-2, ["TrendBear(15m)"]) else (0, [])),
              Confluence.term (Confluence.finGt tf.macdHistogram 0) 1 "MACD>0(15m)",
              (if Confluence.finGt tf.rsi 55 then ((1 : ℤ), ["RSI>55(15m)"])
               else if Confluence.finLt tf.rsi 45 then (-1, ["RSI<45(15m)"]) else (0, [])) ]).map Prod.snd |>.flatten) := by
    cases tf15 with
    | none => simp [Confluence.tally15]
    | some tf =>
      simp only [Confluence.tally15, Confluence.term]
      split_ifs <;> simp
  have e5 : Confluence.tally5 tf5 (0, [])
      = ((match tf5 with
          | none => ([] : List (ℤ × List String))
          | some tf =>
            [ (if Confluence.finGt tf.priceZ20 (12/10) then ((1 : ℤ), ["PriceZ>1(5m)"])
               else if Confluence.finLt tf.priceZ20 (-(12/10)) then (-1, ["PriceZ<-1(5m)"]) else (0, [])),
              Confluence.term (Confluence.finGt tf.volumeZScore (3/2)) 1 "VolumeSpike(5m)" ]).map Prod.fst |>.sum,
         (match tf5 with
          | none => ([] : List (ℤ × List String))
          | some tf =>
            [ (if Confluence.finGt tf.priceZ20 (12/10) then ((1 : ℤ), ["PriceZ>1(5m)"])
               else if Confluence.finLt tf.priceZ20 (-(12/10)) then (-1, ["PriceZ<-1(5m)"]) else (0, [])),
              Confluence.term (Confluence.finGt tf.volumeZScore (3/2)) 1 "VolumeSpike(5m)" ]).map Prod.snd |>.flatten) := by
    cases tf5 with
    | none => simp [Confluence.tally5]
    | some tf =>
      simp only [Confluence.tally5, Confluence.term]
      split_ifs <;> simp
  have e1h : Confluence.tally1h tf1h (0, [])
      = ((match tf1h with
          | none => ([] : List (ℤ × List String))
          | some tf =>
            [ (if tf.maStack = some "bull" then ((1 : ℤ), ["TrendBull(1h)"])
               else if tf.maStack = some "bear" then (-1, ["TrendBear(1h)"]) else (0, [])) ]).map Prod.fst |>.sum,
         (match tf1h with
          | none => ([] : List (ℤ × List String))
          | some tf =>
            [ (if tf.maStack = some "bull" then ((1 : ℤ), ["TrendBull(1h)"])
               else if tf.maStack = some "bear" then (-1, ["TrendBear(1h)"]) else (0, [])) ]).map Prod.snd |>.flatten) := by
    cases tf1h with
    | none => simp [Confluence.tally1h]
    | some tf =>
      simp only [Confluence.tally1h, Confluence.term]
      split_ifs <;> simp
  show Confluence.tally1h tf1h (Confluence.tally5 tf5 (Confluence.tally15 tf15 (0, [])))
      = Confluence.amendedConfluence tf5 tf15 tf1h
  rw [h1h, h5]
  simp only [Confluence.amendedConfluence, e15, e5, e1h]
  simp [add_assoc]

/-- C5 counterexample: a decision with a valid action but
`entry.type = "weird"` and a non-string followup is normalised with the
entry object passed through unvalidated and the followup kept, refuting
the claimed `entry.type ∈ {market, limit}` validation and the
string-list check on `followups`. -/
theorem normaliseDecision_no_validation_counterexample :
    (Decider.normaliseDecision (some
      { action := some "HOLD", sizePct := .nan, stopAtr := .nan, tpAtr := .nan,
        entry := some { etype := some "weird" }, followups := .arr [.other],
        comment := none }) "LLM decision").entry = some { etype := some "weird" }
    ∧ (Decider.normaliseDecision (some
      { action := some "HOLD", sizePct := .nan, stopAtr := .nan, tpAtr := .nan,
        entry := some { etype := some "weird" }, followups := .arr [.other],
        comment := none }) "LLM decision").followups = [.other]
    ∧ ("weird" ≠ "market" ∧ "weird" ≠ "limit")
    ∧ Decider.JVal.other.isStr = false := by
  decide

/-- C5 (amended): an action outside the allowed set yields the default
HOLD decision; `size_pct`, `stop_atr`, `tp_atr` are coerced to finite
numbers or null; `entry` is passed through unchanged (null when absent)
with no validation of `entry.type`; `followups` is kept when it is an
array of arbitrary values and replaced by `[]` otherwise; the
normalised action always lies in the allowed set. -/
theorem normaliseDecision_amended (dec : Decider.RawDecision) (source : String) :
    ((Decider.normaliseDecision (some dec) source).action ∈ Decider.allowedActions)
    ∧ (jsToUpper (dec.action.getD "") ∉ Decider.allowedActions →
        Decider.normaliseDecision (some dec) source
          = Decider.defaultDecision
              ("Unsupported action \"" ++ dec.action.getD "undefined" ++ "\""))
    ∧ (jsToUpper (dec.action.getD "") ∈ Decider.allowedActions →
        (Decider.normaliseDecision (some dec) source).action
            = jsToUpper (dec.action.getD "")
        ∧ ((Decider.normaliseDecision (some dec) source).sizePct = none
            ∨ ∃ q, dec.sizePct = .num q
              ∧ (Decider.normaliseDecision (some dec) source).sizePct = some q)
        ∧ ((Decider.normaliseDecision (some dec) source).stopAtr = none
            ∨ ∃ q, dec.stopAtr = .num q
              ∧ (Decider.normaliseDecision (some dec) source).stopAtr = some q)
        ∧ ((Decider.normaliseDecision (some dec) source).tpAtr = none
            ∨ ∃ q, dec.tpAtr = .num q
              ∧ (Decider.normaliseDecision (some dec) source).tpAtr = some q)
        ∧ (Decider.normaliseDecision (some dec) source).entry = dec.entry
        ∧ (dec.followups = .notArray →
            (Decider.normaliseDecision (some dec) source).followups = [])
        ∧ (∀ l, dec.followups = .arr l →
            (Decider.normaliseDecision (some dec) source).followups = l))
    ∧ Decider.normaliseDecision none source
        = Decider.defaultDecision ("Invalid " ++ source) := by
  by_cases hmem : jsToUpper (dec.action.getD "") ∈ Decider.allowedActions
  · have hn : Decider.normaliseDecision (some dec) source =
        { action := jsToUpper (dec.action.getD "")
          sizePct := Decider.finOpt dec.sizePct
          stopAtr := Decider.finOpt dec.stopAtr
          tpAtr := Decider.finOpt dec.tpAtr
          entry := dec.entry
          followups := match dec.followups with
            | .arr l => l
            | .notArray => []
          comment := match dec.comment with
            | some s => s.trim
            | none => source } := by
      simp only [Decider.normaliseDecision]
      rw [if_pos hmem]
    refine ⟨?_, fun hc => absurd hmem hc, ?_, rfl⟩
    · rw [hn]; exact hmem
    · intro _
      refine ⟨by rw [hn], ?_, ?_, ?_, by rw [hn], ?_, ?_⟩
      · cases h : dec.sizePct
        · exact Or.inr ⟨_, rfl, by rw [hn]; simp [Decider.finOpt, h]⟩
        all_goals exact Or.inl (by rw [hn]; simp [Decider.finOpt, h])
      · cases h : dec.stopAtr
        · exact Or.inr ⟨_, rfl, by rw [hn]; simp [Decider.finOpt, h]⟩
        all_goals exact Or.inl (by rw [hn]; simp [Decider.finOpt, h])
      · cases h : dec.tpAtr
        · exact Or.inr ⟨_, rfl, by rw [hn]; simp [Decider.finOpt, h]⟩
        all_goals exact Or.inl (by rw [hn]; simp [Decider.finOpt, h])
      · intro h; rw [hn]; simp [h]
      · intro l h; rw [hn]; simp [h]
  · have hn : Decider.normaliseDecision (some dec) source =
        Decider.defaultDecision
          ("Unsupported action \"" ++ dec.action.getD "undefined" ++ "\"") := by
      simp only [Decider.normaliseDecision]
      rw [if_neg hmem]
    refine ⟨?_, fun _ => hn, fun hc => absurd hc hmem, rfl⟩
    rw [hn]
    simp [Decider.defaultDecision, Decider.allowedActions]

/-- Witness for `normaliseDecision_amended`: a lower-case `open_long`
action with a finite `size_pct`, a limit entry and a non-array
`followups`. -/
theorem normaliseDecision_amended_witness :
    ((Decider.normaliseDecision (some
      { action := some "open_long", sizePct := .num 25, stopAtr := .inf, tpAtr := .nan,
        entry := some { etype := some "limit" }, followups := .notArray,
        comment := some " ok " }) "LLM decision").action ∈ Decider.allowedActions)
    ∧ (jsToUpper ((some "open_long").getD "") ∉ Decider.allowedActions →
        Decider.normaliseDecision (some
          { action := some "open_long", sizePct := .num 25, stopAtr := .inf, tpAtr := .nan,
            entry := some { etype := some "limit" }, followups := .notArray,
            comment := some " ok " }) "LLM decision"
          = Decider.defaultDecision
              ("Unsupported action \"" ++ (some "open_long").getD "undefined" ++ "\""))
    ∧ (jsToUpper ((some "open_long").getD "") ∈ Decider.allowedActions →
        (Decider.normaliseDecision (some
          { action := some "open_long", sizePct := .num 25, stopAtr := .inf, tpAtr := .nan,
            entry := some { etype := some "limit" }, followups := .notArray,
            comment := some " ok " }) "LLM decision").action
            = jsToUpper ((some "open_long").getD "")
        ∧ ((Decider.normaliseDecision (some
          { action := some "open_long", sizePct := .num 25, stopAtr := .inf, tpAtr := .nan,
            entry := some { etype := some "limit" }, followups := .notArray,
            comment := some " ok " }) "LLM decision").sizePct = none
            ∨ ∃ q, JsNum.num 25 = .num q
              ∧ (Decider.normaliseDecision (some
                { action := some "open_long", sizePct := .num 25, stopAtr := .inf, tpAtr := .nan,
                  entry := some { etype := some "limit" }, followups := .notArray,
                  comment := some " ok " }) "LLM decision").sizePct = some q)
        ∧ ((Decider.normaliseDecision (some
          { action := some "open_long", sizePct := .num 25, stopAtr := .inf, tpAtr := .nan,
            entry := some { etype := some "limit" }, followups := .notArray,
            comment := some " ok " }) "LLM decision").stopAtr = none
            ∨ ∃ q, JsNum.inf = .num q
              ∧ (Decider.normaliseDecision (some
                { action := some "open_long", sizePct := .num 25, stopAtr := .inf, tpAtr := .nan,
                  entry := some { etype := some "limit" }, followups := .notArray,
                  comment := some " ok " }) "LLM decision").stopAtr = some q)
        ∧ ((Decider.normaliseDecision (some
          { action := some "open_long", sizePct := .num 25, stopAtr := .inf, tpAtr := .nan,
            entry := some { etype := some "limit" }, followups := .notArray,
            comment := some " ok " }) "LLM decision").tpAtr = none
            ∨ ∃ q, JsNum.nan = .num q
              ∧ (Decider.normaliseDecision (some
                { action := some "open_long", sizePct := .num 25, stopAtr := .inf, tpAtr := .nan,
                  entry := some { etype := some "limit" }, followups := .notArray,
                  comment := some " ok " }) "LLM decision").tpAtr = some q)
        ∧ (Decider.normaliseDecision (some
          { action := some "open_long", sizePct := .num 25, stopAtr := .inf, tpAtr := .nan,
            entry := some { etype := some "limit" }, followups := .notArray,
            comment := some " ok " }) "LLM decision").entry = some { etype := some "limit" }
        ∧ (Decider.FolField.notArray = Decider.FolField.notArray →
            (Decider.normaliseDecision (some
              { action := some "open_long", sizePct := .num 25, stopAtr := .inf, tpAtr := .nan,
                entry := some { etype := some "limit" }, followups := .notArray,
                comment := some " ok " }) "LLM decision").followups = [])
        ∧ (∀ l, Decider.FolField.notArray = Decider.FolField.arr l →
            (Decider.normaliseDecision (some
              { action := some "open_long", sizePct := .num 25, stopAtr := .inf, tpAtr := .nan,
                entry := some { etype := some "limit" }, followups := .notArray,
                comment := some " ok " }) "LLM decision").followups = l))
    ∧ Decider.normaliseDecision none "LLM decision"
        = Decider.defaultDecision ("Invalid " ++ "LLM decision") :=
  normaliseDecision_amended
    { action := some "open_long", sizePct := .num 25, stopAtr := .inf, tpAtr := .nan,
      entry := some { etype := some "limit" }, followups := .notArray,
      comment := some " ok " } "LLM decision"

/-- Splitting the first backoff off a linear-backoff wait list. -/
theorem backoff_range_shift (backoff attempt k : ℕ) :
    (List.range (k + 1)).map (fun j => backoff * (attempt + j))
      = backoff * attempt :: (List.range k).map (fun j => backoff * (attempt + 1 + j)) := by
  have htail : (List.range k).map ((fun j => backoff * (attempt + j)) ∘ Nat.succ)
      = (List.range k).map (fun j => backoff * (attempt + 1 + j)) := by
    apply List.map_congr_left
    intro j _
    have hsw : attempt + (j + 1) = attempt + 1 + j := by omega
    simp [Function.comp, hsw]
  rw [List.range_succ_eq_map, List.map_cons, List.map_map, htail]
  simp

/-- Behaviour of the bounded retry loop of `makeRequest`, for any
starting attempt with enough fuel: it stops at the first success or at
attempt `maxR`, returns the outcome of its last attempt, every earlier
attempt failed, and the waits are `backoff · i` for each retried
attempt `i`. -/
theorem retryLoop_spec {α : Type} (outcomes : ℕ → Except String α) (backoff maxR : ℕ) :
    ∀ (fuel attempt : ℕ) (waits : List ℕ),
      1 ≤ attempt → attempt ≤ maxR → attempt + fuel = maxR + 1 →
      ∃ n, RestData.retryLoop outcomes backoff maxR fuel attempt waits
          = (outcomes n, n,
             waits ++ (List.range (n - attempt)).map (fun j => backoff * (attempt + j)))
        ∧ attempt ≤ n ∧ n ≤ maxR
        ∧ (∀ i, attempt ≤ i → i < n → ∃ e, outcomes i = .error e)
        ∧ (∀ e, outcomes n = .error e → n = maxR) := by
  intro fuel
  induction fuel with
  | zero => intro attempt waits h1 h2 h3; omega
  | succ fuel ih =>
    intro attempt waits h1 h2 h3
    cases hout : outcomes attempt with
    | ok a =>
      refine ⟨attempt, ?_, le_refl _, h2, fun i hi1 hi2 => absurd hi2 (by omega), ?_⟩
      · simp [RestData.retryLoop, hout]
      · intro e he; rw [hout] at he; cases he
    | error e =>
      by_cases hlast : attempt = maxR
      · subst hlast
        refine ⟨attempt, ?_, le_refl _, h2,
          fun i hi1 hi2 => absurd hi2 (by omega), fun _ _ => rfl⟩
        simp [RestData.retryLoop, hout]
      · obtain ⟨n, heq, hge, hle, herr, hstop⟩ :=
          ih (attempt + 1) (waits ++ [backoff * attempt]) (by omega) (by omega) (by omega)
        refine ⟨n, ?_, by omega, hle, ?_, hstop⟩
        · have hrange : n - attempt = (n - (attempt + 1)) + 1 := by omega
          simp only [RestData.retryLoop, hout, if_neg hlast]
          rw [heq, hrange, backoff_range_shift]
          simp
        · intro i hi1 hi2
          rcases eq_or_lt_of_le hi1 with hcase | hgt
          · exact ⟨e, hcase ▸ hout⟩
          · exact herr i (by omega) hi2

/-- Behaviour of the bounded retry loop of `getOpenOrders`: it stops at
the first success, at attempt 5, or at the first error whose text
contains neither `"Invalid nonce"` nor `"timeout"`; every retried
attempt failed with a retryable error; errors are surfaced wrapped. -/
theorem openOrdersLoop_spec {α : Type} (inner : ℕ → Except String α) :
    ∀ (fuel attempt : ℕ) (waits : List ℕ),
      1 ≤ attempt → attempt ≤ 5 → attempt + fuel = 6 →
      ∃ n, RestData.openOrdersLoop inner fuel attempt waits
          = ((match inner n with
              | .ok a => .ok a
              | .error msg => .error ("Failed to fetch open orders: " ++ msg)), n,
             waits ++ (List.range (n - attempt)).map (fun j => 250 * (attempt + j)))
        ∧ attempt ≤ n ∧ n ≤ 5
        ∧ (∀ i, attempt ≤ i → i < n → ∃ e, inner i = .error e ∧
            (jsIncludes e "Invalid nonce" = true ∨ jsIncludes e "timeout" = true)) := by
  intro fuel
  induction fuel with
  | zero => intro attempt waits h1 h2 h3; omega
  | succ fuel ih =>
    intro attempt waits h1 h2 h3
    cases hout : inner attempt with
    | ok a =>
      refine ⟨attempt, ?_, le_refl _, h2, fun i hi1 hi2 => absurd hi2 (by omega)⟩
      simp [RestData.openOrdersLoop, hout]
    | error e =>
      by_cases hstop : attempt = 5 ∨
          (¬ jsIncludes e "Invalid nonce" ∧ ¬ jsIncludes e "timeout")
      · refine ⟨attempt, ?_, le_refl _, h2, fun i hi1 hi2 => absurd hi2 (by omega)⟩
        simp only [RestData.openOrdersLoop, hout]
        rw [if_pos hstop]
        simp
      · have h5 : attempt ≠ 5 := fun h => hstop (Or.inl h)
        have hretry : jsIncludes e "Invalid nonce" = true ∨ jsIncludes e "timeout" = true := by
          by_contra hc
          push_neg at hc
          exact hstop (Or.inr ⟨hc.1, hc.2⟩)
        obtain ⟨n, heq, hge, hle, herr⟩ :=
          ih (attempt + 1) (waits ++ [250 * attempt]) (by omega) (by omega) (by omega)
        refine ⟨n, ?_, by omega, hle, ?_⟩
        · have hrange : n - attempt = (n - (attempt + 1)) + 1 := by omega
          simp only [RestData.openOrdersLoop, hout, if_neg hstop]
          rw [heq, hrange, backoff_range_shift]
          simp
        · intro i hi1 hi2
          rcases eq_or_lt_of_le hi1 with hcase | hgt
          · exact ⟨e, hcase ▸ hout, hretry⟩
          · exact herr i (by omega) hi2

/-- C6: every REST call through the client makes at most 3 attempts with
linear backoff `250ms × attempt` and surfaces the outcome of its last
attempt (so an error is surfaced only after attempt 3); the open-orders
endpoint additionally retries its `makeRequest` call up to 5 times, and
only when the error text contains `"Invalid nonce"` or `"timeout"` —
any other error is surfaced (wrapped) without further outer retry. -/
theorem rest_retry_policy :
    (∀ (α : Type) (outcomes : ℕ → Except String α) r n w,
      RestData.makeRequest outcomes = (r, n, w) →
        1 ≤ n ∧ n ≤ 3 ∧ r = outcomes n
        ∧ (∀ i, 1 ≤ i → i < n → ∃ e, outcomes i = .error e)
        ∧ (∀ e, r = .error e → n = 3)
        ∧ w = (List.range (n - 1)).map (fun j => 250 * (1 + j)))
    ∧ (∀ (α : Type) (outcomes : ℕ → ℕ → Except String α) r n w,
      RestData.getOpenOrders outcomes = (r, n, w) →
        1 ≤ n ∧ n ≤ 5
        ∧ (∀ i, 1 ≤ i → i < n → ∃ e, (RestData.makeRequest (outcomes i)).1 = .error e
            ∧ (jsIncludes e "Invalid nonce" = true ∨ jsIncludes e "timeout" = true))
        ∧ (∀ e, (RestData.makeRequest (outcomes n)).1 = .error e →
            r = .error ("Failed to fetch open orders: " ++ e))
        ∧ (∀ a, (RestData.makeRequest (outcomes n)).1 = .ok a → r = .ok a)
        ∧ w = (List.range (n - 1)).map (fun j => 250 * (1 + j))) := by
  constructor
  · intro α outcomes r n w h
    obtain ⟨m, heq, hge, hle, herr, hstop⟩ :=
      retryLoop_spec outcomes 250 3 3 1 [] le_rfl (by omega) (by omega)
    have hh : (r, n, w)
        = (outcomes m, m, [] ++ (List.range (m - 1)).map (fun j => 250 * (1 + j))) :=
      h.symm.trans heq
    have hr : r = outcomes m := congrArg Prod.fst hh
    have hn : n = m := congrArg (fun p => p.2.1) hh
    have hw : w = [] ++ (List.range (m - 1)).map (fun j => 250 * (1 + j)) :=
      congrArg (fun p => p.2.2) hh
    subst hn
    refine ⟨hge, hle, hr, herr, ?_, by simpa using hw⟩
    intro e he
    exact hstop e (hr ▸ he)
  · intro α outcomes r n w h
    obtain ⟨m, heq, hge, hle, herr⟩ :=
      openOrdersLoop_spec (fun i => (RestData.makeRequest (outcomes i)).1)
        5 1 [] le_rfl (by omega) (by omega)
    have hh : (r, n, w)
        = ((match (RestData.makeRequest (outcomes m)).1 with
            | .ok a => .ok a
            | .error msg => .error ("Failed to fetch open orders: " ++ msg)), m,
           [] ++ (List.range (m - 1)).map (fun j => 250 * (1 + j))) :=
      h.symm.trans heq
    have hr : r = (match (RestData.makeRequest (outcomes m)).1 with
        | .ok a => .ok a
        | .error msg => .error ("Failed to fetch open orders: " ++ msg)) :=
      congrArg Prod.fst hh
    have hn : n = m := congrArg (fun p => p.2.1) hh
    have hw : w = [] ++ (List.range (m - 1)).map (fun j => 250 * (1 + j)) :=
      congrArg (fun p => p.2.2) hh
    subst hn
    refine ⟨hge, hle, herr, ?_, ?_, by simpa using hw⟩
    · intro e he
      rw [hr, he]
    · intro a ha
      rw [hr, ha]

/-- Witness for `rest_retry_policy`: a permanently failing endpoint is
retried exactly 3 times with waits 250/500 ms, and an open-orders call
failing with an `Invalid nonce` error is retried 5 times. -/
theorem rest_retry_policy_witness :
    (RestData.makeRequest (fun _ => (.error "boom" : Except String ℕ))
        = (.error "boom", 3, [250, 500]))
    ∧ (1 ≤ 3 ∧ 3 ≤ 3 ∧ (.error "boom" : Except String ℕ) = .error "boom"
        ∧ (∀ i, 1 ≤ i → i < 3 → ∃ e, (.error "boom" : Except String ℕ) = .error e)
        ∧ (∀ e, (.error "boom" : Except String ℕ) = .error e → 3 = 3)
        ∧ [250, 500] = (List.range (3 - 1)).map (fun j => 250 * (1 + j)))
    ∧ (RestData.getOpenOrders (fun _ _ => (.error "Invalid nonce xyz" : Except String ℕ))
        = (.error "Failed to fetch open orders: Invalid nonce xyz", 5, [250, 500, 750, 1000]))
    ∧ (1 ≤ 5 ∧ 5 ≤ 5
        ∧ (∀ i, 1 ≤ i → i < 5 →
            ∃ e, (RestData.makeRequest
                (fun _ => (.error "Invalid nonce xyz" : Except String ℕ))).1 = .error e
              ∧ (jsIncludes e "Invalid nonce" = true ∨ jsIncludes e "timeout" = true))
        ∧ (∀ e, (RestData.makeRequest
              (fun _ => (.error "Invalid nonce xyz" : Except String ℕ))).1 = .error e →
            (.error "Failed to fetch open orders: Invalid nonce xyz" : Except String ℕ)
              = .error ("Failed to fetch open orders: " ++ e))
        ∧ (∀ a, (RestData.makeRequest
              (fun _ => (.error "Invalid nonce xyz" : Except String ℕ))).1 = .ok a →
            (.error "Failed to fetch open orders: Invalid nonce xyz" : Except String ℕ) = .ok a)
        ∧ [250, 500, 750, 1000] = (List.range (5 - 1)).map (fun j => 250 * (1 + j))) :=
  ⟨rfl,
   rest_retry_policy.1 ℕ (fun _ => .error "boom") (.error "boom") 3 [250, 500] rfl,
   rfl,
   rest_retry_policy.2 ℕ (fun _ _ => .error "Invalid nonce xyz")
     (.error "Failed to fetch open orders: Invalid nonce xyz") 5 [250, 500, 750, 1000] rfl⟩

/-- Behaviour of one `detect` call: reasons accumulate into the pending
set; the call emits exactly the accumulated set and clears it when the
debounce gate allows, and emits nothing (keeping the accumulated set and
the last emission timestamp) otherwise. -/
theorem detectStep_spec (cfg : EventEngine.Cfg) (ts : ℚ) (reasons : List String)
    (thr : Bool) (s : EventEngine.State) :
    ((EventEngine.detectStep cfg ts reasons thr s).1 = [] →
        (EventEngine.detectStep cfg ts reasons thr s).2.pendingReasonSet
            = EventEngine.setAddAll s.pendingReasonSet
                (if thr then reasons ++ ["MomentumSpike(PriceFeed)"] else reasons)
        ∧ (EventEngine.detectStep cfg ts reasons thr s).2.lastEmitTs = s.lastEmitTs)
    ∧ ((EventEngine.detectStep cfg ts reasons thr s).1 ≠ [] →
        (EventEngine.detectStep cfg ts reasons thr s).1
            = EventEngine.setAddAll s.pendingReasonSet
                (if thr then reasons ++ ["MomentumSpike(PriceFeed)"] else reasons)
        ∧ (EventEngine.detectStep cfg ts reasons thr s).2.pendingReasonSet = []
        ∧ (EventEngine.detectStep cfg ts reasons thr s).2.lastEmitTs = ts
        ∧ (s.lastEmitTs = 0 ∨ cfg.debounceMs ≤ ts - s.lastEmitTs)) := by
  by_cases hp : EventEngine.setAddAll s.pendingReasonSet
      (if thr then reasons ++ ["MomentumSpike(PriceFeed)"] else reasons) = []
  · have hr : EventEngine.detectStep cfg ts reasons thr s
        = ([], { s with pendingReasonSet := EventEngine.setAddAll s.pendingReasonSet (if thr then reasons ++ ["MomentumSpike(PriceFeed)"] else reasons) }) := by
      simp only [EventEngine.detectStep, EventEngine.maybeEmit]
      rw [if_pos hp]
    rw [hr]
    exact ⟨fun _ => ⟨rfl, rfl⟩, fun hne => absurd rfl hne⟩
  · by_cases hg : s.lastEmitTs = 0 ∨ cfg.debounceMs ≤ ts - s.lastEmitTs
    · have hr : EventEngine.detectStep cfg ts reasons thr s
          = (EventEngine.setAddAll s.pendingReasonSet (if thr then reasons ++ ["MomentumSpike(PriceFeed)"] else reasons),
             { s with pendingReasonSet := [], lastEmitTs := ts }) := by
        simp only [EventEngine.detectStep, EventEngine.maybeEmit]
        rw [if_neg hp, if_pos hg]
      rw [hr]
      exact ⟨fun he => absurd he hp, fun _ => ⟨rfl, rfl, rfl, hg⟩⟩
    · have hr : EventEngine.detectStep cfg ts reasons thr s
          = ([], { s with pendingReasonSet := EventEngine.setAddAll s.pendingReasonSet (if thr then reasons ++ ["MomentumSpike(PriceFeed)"] else reasons) }) := by
        simp only [EventEngine.detectStep, EventEngine.maybeEmit]
        rw [if_neg hp, if_neg hg]
      rw [hr]
      exact ⟨fun _ => ⟨rfl, rfl⟩, fun hne => absurd rfl hne⟩

/-- Emissions of a `detect` trace are spaced by at least the debounce
interval, provided every call timestamp is positive (true in the code:
the timestamp is `snapshot.timestamp || Date.now()`). -/
theorem runDetect_chain_aux (cfg : EventEngine.Cfg) :
    ∀ (trace : List (ℚ × List String × Bool)) (s : EventEngine.State),
      (∀ e ∈ trace, 0 < e.1) →
      List.Chain' (fun a b => cfg.debounceMs ≤ b.1 - a.1)
        (EventEngine.runDetect cfg trace s).2
      ∧ (∀ p, (EventEngine.runDetect cfg trace s).2.head? = some p →
          (s.lastEmitTs = 0 ∨ cfg.debounceMs ≤ p.1 - s.lastEmitTs)) := by
  intro trace
  induction trace with
  | nil =>
    intro s _
    exact ⟨List.chain'_nil, fun p hp => by simp [EventEngine.runDetect] at hp⟩
  | cons step rest ih =>
    intro s hpos
    have hstep := detectStep_spec cfg step.1 step.2.1 step.2.2 s
    have hrest := ih ((EventEngine.detectStep cfg step.1 step.2.1 step.2.2 s).2)
      (fun e he => hpos e (List.mem_cons_of_mem _ he))
    have hts : 0 < step.1 := hpos step (List.mem_cons_self step rest)
    have hout : (EventEngine.runDetect cfg (step :: rest) s).2
        = (if (EventEngine.detectStep cfg step.1 step.2.1 step.2.2 s).1 = []
           then (EventEngine.runDetect cfg rest
             (EventEngine.detectStep cfg step.1 step.2.1 step.2.2 s).2).2
           else (step.1, (EventEngine.detectStep cfg step.1 step.2.1 step.2.2 s).1)
             :: (EventEngine.runDetect cfg rest
               (EventEngine.detectStep cfg step.1 step.2.1 step.2.2 s).2).2) := by
      simp only [EventEngine.runDetect]
    by_cases hem : (EventEngine.detectStep cfg step.1 step.2.1 step.2.2 s).1 = []
    · rw [hout, if_pos hem]
      obtain ⟨hpend, hlast⟩ := hstep.1 hem
      exact ⟨hrest.1, fun p hp => by rw [← hlast]; exact hrest.2 p hp⟩
    · rw [hout, if_neg hem]
      obtain ⟨hemit, hpend, hlast, hgate⟩ := hstep.2 hem
      constructor
      · rw [List.chain'_cons']
        refine ⟨?_, hrest.1⟩
        intro b hb
        have := hrest.2 b hb
        rw [hlast] at this
        rcases this with h0 | hd
        · exact absurd h0 (ne_of_gt hts)
        · exact hd
      · intro p hp
        rw [List.head?_cons, Option.some_inj] at hp
        rw [← hp]
        exact hgate

/-- C7: for every sequence of `detect` calls, reasons accumulate in the
pending set; an emission returns the accumulated set and clears it only
when the debounce gate allows; consequently (for positive timestamps,
which the `snapshot.timestamp || Date.now()` extraction guarantees)
consecutive emissions are at least `debounceMs` apart — at most one
emission per debounce window, so no reason set (and in particular no
single reason) is emitted twice within one window. -/
theorem eventEngine_debounce (cfg : EventEngine.Cfg) :
    (∀ (ts : ℚ) (reasons : List String) (thr : Bool) (s : EventEngine.State),
      ((EventEngine.detectStep cfg ts reasons thr s).1 = [] →
          (EventEngine.detectStep cfg ts reasons thr s).2.pendingReasonSet
              = EventEngine.setAddAll s.pendingReasonSet
                  (if thr then reasons ++ ["MomentumSpike(PriceFeed)"] else reasons)
          ∧ (EventEngine.detectStep cfg ts reasons thr s).2.lastEmitTs = s.lastEmitTs)
      ∧ ((EventEngine.detectStep cfg ts reasons thr s).1 ≠ [] →
          (EventEngine.detectStep cfg ts reasons thr s).1
              = EventEngine.setAddAll s.pendingReasonSet
                  (if thr then reasons ++ ["MomentumSpike(PriceFeed)"] else reasons)
          ∧ (EventEngine.detectStep cfg ts reasons thr s).2.pendingReasonSet = []
          ∧ (EventEngine.detectStep cfg ts reasons thr s).2.lastEmitTs = ts
          ∧ (s.lastEmitTs = 0 ∨ cfg.debounceMs ≤ ts - s.lastEmitTs)))
    ∧ (∀ (trace : List (ℚ × List String × Bool)),
      (∀ e ∈ trace, 0 < e.1) →
      List.Chain' (fun a b => cfg.debounceMs ≤ b.1 - a.1)
        (EventEngine.runDetect cfg trace EventEngine.initState).2) :=
  ⟨fun ts reasons thr s => detectStep_spec cfg ts reasons thr s,
   fun trace h => (runDetect_chain_aux cfg trace EventEngine.initState h).1⟩

/-- Witness for `eventEngine_debounce`: a three-call trace at the
default 60s debounce (emission at t=100000, a suppressed call at
t=120000 whose reason is carried to the emission at t=200000). -/
theorem eventEngine_debounce_witness :
    (∀ e ∈ ([((100000 : ℚ), ["A"], false), (120000, ["B"], false),
        (200000, ["C"], false)] : List (ℚ × List String × Bool)), 0 < e.1)
    ∧ List.Chain' (fun a b => EventEngine.defaultCfg.debounceMs ≤ b.1 - a.1)
        (EventEngine.runDetect EventEngine.defaultCfg
          [((100000 : ℚ), ["A"], false), (120000, ["B"], false), (200000, ["C"], false)]
          EventEngine.initState).2 :=
  ⟨by norm_num,
   (eventEngine_debounce EventEngine.defaultCfg).2
     [((100000 : ℚ), ["A"], false), (120000, ["B"], false), (200000, ["C"], false)]
     (by norm_num)⟩

/-- The minimum-volume boundary of `_normaliseVolume`: a volume exactly
equal to `ordermin` is accepted (and then precision-formatted), any
positive volume strictly below it is rejected. -/
theorem normaliseVolume_min_boundary (cfg : Bot.Cfg) (henf : cfg.enforcePrecision = true)
    (hmin : 0 < cfg.minVol) :
    Bot.normaliseVolume cfg cfg.minVol = .ok (Bot.applyVolumePrecision cfg cfg.minVol)
    ∧ (∀ v, 0 < v → v < cfg.minVol →
        Bot.normaliseVolume cfg v = .error "Volume is below minimum order size") := by
  constructor
  · unfold Bot.normaliseVolume
    rw [if_neg (not_le.mpr hmin), if_neg (by simp [henf]),
      if_neg (by simp)]
  · intro v hv hlt
    unfold Bot.normaliseVolume
    rw [if_neg (not_le.mpr hv), if_neg (by simp [henf]), if_pos ⟨hmin, hlt⟩]

/-- Witness for `normaliseVolume_min_boundary` at the example
configuration (`ordermin = 1`). -/
theorem normaliseVolume_min_boundary_witness :
    exampleDryCfg.enforcePrecision = true ∧ (0 : ℚ) < exampleDryCfg.minVol ∧
    (Bot.normaliseVolume exampleDryCfg exampleDryCfg.minVol
        = .ok (Bot.applyVolumePrecision exampleDryCfg exampleDryCfg.minVol)
      ∧ (∀ v, 0 < v → v < exampleDryCfg.minVol →
          Bot.normaliseVolume exampleDryCfg v
            = .error "Volume is below minimum order size")) :=
  ⟨rfl, by norm_num [exampleDryCfg],
   normaliseVolume_min_boundary exampleDryCfg rfl (by norm_num [exampleDryCfg])⟩

/-- C2 (code bug at the failing input): with `volume_decimals = 0`,
quote balance 80000, `max_trade_risk_pct = 0.75`, `size_pct = 25` and
price 6, the notional is `min(600, 20000) = 600` and the volume is
`600 / 6 = 100`, which rounded to 0 decimals is still `100`; yet the
submitted payload carries volume `1`, because
`formatWithPrecision(100, 0)` renders `"100"` and the trailing-zero
strip `/\.?0+$/` (which lacks a mandatory decimal point) rewrites it to
`"1"`.  The claim (and the spec invariant that submitted volumes are the
rounded values) is right; the regex in the code is the slip. -/
theorem openLong_volume_decimals_zero_bug :
    ExecEngine.openLong exampleZeroDecimalsCfg
      ExecEngine.defaultRisk 80000 6 (.num 25) none
      = .ok ([], .dryRunRes
          { pair := "TESTPAIR", type := "buy", ordertype := "market",
            volume := some 1, price := none })
    ∧ (600 : ℚ) = min (80000 * (ExecEngine.defaultRisk.maxTradeRiskPct / 100))
        (80000 * ((25 : ℚ) / 100))
    ∧ ((600 : ℚ) / 6) = 100
    ∧ ((jsRound ((100 : ℚ) * (10 : ℚ) ^ (0 : ℕ)) : ℚ) / (10 : ℚ) ^ (0 : ℕ)) = 100
    ∧ (1 : ℚ) ≠ 100 := by
  have hround : jsRound ((100 : ℚ) * (10 : ℚ) ^ (0 : ℕ)) = 100 := by
    unfold jsRound
    norm_num
  have htz : Bot.trailingZeros ((100 : ℤ).natAbs) = 2 := by decide
  have hfmt : Bot.formatWithPrecision 100 0 = 1 := by
    unfold Bot.formatWithPrecision Bot.stripIntValue
    rw [if_pos rfl, hround, htz]
    norm_num
  have hnorm : Bot.normaliseVolume exampleZeroDecimalsCfg 100 = .ok 1 := by
    unfold Bot.normaliseVolume Bot.applyVolumePrecision
    rw [if_neg (by norm_num), if_neg (by simp [exampleZeroDecimalsCfg]),
      if_neg (by norm_num [exampleZeroDecimalsCfg])]
    simp [exampleZeroDecimalsCfg, hfmt]
  have hbuy : Bot.marketBuy exampleZeroDecimalsCfg 100
      = .ok ([], .dry { pair := "TESTPAIR", type := "buy", ordertype := "market", volume := some 1, price := none }) := by
    have hnorm2 : Bot.normaliseVolume
        { dryRun := true, enforcePrecision := true, volDecimals := 0, priceDecimals := 0, minVol := 1, pairAltname := "TESTPAIR" }
        100 = .ok 1 := hnorm
    unfold Bot.marketBuy Bot.submitOrder Bot.buildPayload
    rw [if_neg (by simp)]
    simp [hnorm, hnorm2, exampleZeroDecimalsCfg, Except.map]
  have hnot : ExecEngine.computeNotional ExecEngine.defaultRisk 80000 25 = some 600 := by
    unfold ExecEngine.computeNotional
    rw [if_neg (by norm_num)]
    norm_num [ExecEngine.defaultRisk]
  have hder : ExecEngine.deriveEntryPrice exampleZeroDecimalsCfg 6 none = some 6 := by
    unfold ExecEngine.deriveEntryPrice
    rw [if_neg (by norm_num)]
  refine ⟨?_, by norm_num [ExecEngine.defaultRisk], by norm_num,
    by rw [hround]; norm_num, by norm_num⟩
  unfold ExecEngine.openLong
  norm_num [hder, hnot, hbuy, show (600 : ℚ) / 6 = 100 from by norm_num,
    show ExecEngine.defaultRisk.minNotional = 20 from rfl]
  rw [if_neg (by decide)]
